import Mathlib

/-!
Shallow embedding of the coupon lifecycle engine of the Dash backend
(service `coupon`: `app/core/CouponService.py` and
`app/db/repositories/coupons.py`), together with theorems settling the
frozen claims about it.

Conventions of the embedding:
* every database table is a Lean `List` of rows inside a single `DB` record;
  `AUTO_INCREMENT` primary keys are explicit `next…Id` counters;
* timestamps are abstract `Nat` ticks (`now_kst()` is a parameter `now`);
  `timedelta(days=valid_days)` becomes `+ validDays`, `timedelta(minutes=1)`
  becomes `+ 60`, matching the spec's "now + 60 seconds";
* a Python function that raises `ValueError("ERR-…")` becomes a function into
  `Except Err _`; an error result carries no state, which models the fact
  that a repository transaction is rolled back / never committed on failure.
  Where the source commits state and *then* raises (payment-QR creation,
  issue deletion), the function instead returns a pair of the outcome and
  the committed state;
* the random 10-digit `registration_code` generation with its
  retry-on-collision loop is modelled by a `supply : List String` of
  candidate codes: each mint takes the first candidate not yet present in
  `coupons` (exhaustion of the finite supply models non-termination of the
  retry loop and is reported as `Err.codeSupplyExhausted`).
-/

namespace DashCoupon

/-- Error vocabulary of the core, from the `ValueError` strings raised by
`CouponService` / `SQLAlchemyCouponRepository` (`ERR-IVD-VALUE`,
`ERR-NOT-YOURS`, `ERR-ALREADY-USED`, `ERR-ALREADY-DECIDED`), plus the media
collaborator failure of `create_payment_qr` and the supply-exhaustion marker
of the code-generation retry loop. -/
inductive Err where
  | invalidValue
  | notYours
  | alreadyUsed
  | alreadyDecided
  | mediaRenderFailed
  | codeSupplyExhausted
deriving Repr, DecidableEq

/-- A row of the `coupons` table. -/
structure Coupon where
  couponId : Nat
  issueId : Nat
  productId : Nat
  partnerId : Nat
  registrationCode : String
  registerId : Option Nat := none
  registerLogId : Option Nat := none
  useLogId : Option Nat := none
  signatureCode : Option String := none
  createdAt : Nat
  expiredAt : Nat
deriving Repr, DecidableEq

/-- A row of the `register_logs` table. -/
structure RegisterLog where
  registerLogId : Nat
  registerUserId : Nat
  registeredAt : Nat
  deletedAt : Option Nat := none
deriving Repr, DecidableEq

/-- A row of the `use_logs` table. -/
structure UseLog where
  useLogId : Nat
  couponId : Nat
  usedAt : Nat
deriving Repr, DecidableEq

/-- A row of the `issue_logs` table. -/
structure IssueLog where
  issueId : Nat
  title : String
  vendorId : Option Nat := none
  partnerId : Option Nat := none
  partnerName : Option String := none
  partnerPhone : Option String := none
  status : String
  requestedAt : Nat
  decidedAt : Option Nat := none
  validDays : Nat
  requestedIssueCount : Int := 0
  approvedIssueCount : Int := 0
  productKindCount : Nat := 0
  reason : Option String := none
  vendorDeletedAt : Option Nat := none
  partnerDeletedAt : Option Nat := none
deriving Repr, DecidableEq

/-- A row of the `issue_products` table. -/
structure IssueProduct where
  issueProductId : Nat
  issueId : Nat
  productId : Option Nat := none
  productName : Option String := none
  stage : String
  count : Int
deriving Repr, DecidableEq

/-- A row of the `products` table. -/
structure Product where
  productId : Nat
  partnerId : Nat
  productName : String
deriving Repr, DecidableEq

/-- A row of the `payment_qrs` table (the ephemeral payment token). -/
structure PaymentQr where
  paymentCode : String
  couponId : Nat
  expiredAt : Nat
deriving Repr, DecidableEq

/-- The backing store.  `partnerUsers` keeps only the primary keys of
`partner_users`, which is all the embedded operations consult. -/
structure DB where
  coupons : List Coupon := []
  registerLogs : List RegisterLog := []
  useLogs : List UseLog := []
  issueLogs : List IssueLog := []
  issueProducts : List IssueProduct := []
  products : List Product := []
  paymentQrs : List PaymentQr := []
  partnerUsers : List Nat := []
  nextCouponId : Nat := 1
  nextRegisterLogId : Nat := 1
  nextUseLogId : Nat := 1
  nextIssueId : Nat := 1
  nextIssueProductId : Nat := 1
  nextProductId : Nat := 1
deriving Repr, DecidableEq

/-! ## Coupon registration (`CouponService.register_coupon`) -/

/-- `SQLAlchemyCouponRepository.register_coupon`: inserts a `register_logs`
row and updates the coupon's `register_id`, `register_log_id` and
`signature_code`.  The `registration_code` argument of the source method is
unused there as well. -/
def repoRegisterCoupon (db : DB) (couponId memberId : Nat)
    (signatureCode : String) (now : Nat) : DB :=
  let logId := db.nextRegisterLogId
  let log : RegisterLog :=
    { registerLogId := logId, registerUserId := memberId, registeredAt := now }
  { db with
    registerLogs := db.registerLogs ++ [log]
    nextRegisterLogId := logId + 1
    coupons := db.coupons.map fun c =>
      if c.couponId = couponId then
        { c with registerId := some memberId, registerLogId := some logId,
                 signatureCode := some signatureCode }
      else c }

/-- `SQLAlchemyCouponRepository.find_coupon_by_id_for_register`
(SELECT … WHERE coupon_id = :coupon_id LIMIT 1). -/
def findCouponByIdForRegister (db : DB) (couponId : Nat) : Option Coupon :=
  db.coupons.find? fun c => c.couponId == couponId

/-- `CouponService.register_coupon`: looks the coupon up, validates the
registration code, rejects a coupon registered by a *different* member with
`ERR-NOT-YOURS`, and otherwise delegates to the repository write. -/
def registerCoupon (db : DB) (couponId : Nat)
    (registrationCode signatureCode : String) (memberId now : Nat) :
    Except Err DB :=
  match findCouponByIdForRegister db couponId with
  | none => .error .invalidValue
  | some c =>
    if c.registrationCode ≠ registrationCode then .error .invalidValue
    else
      match c.registerId with
      | some rid =>
        if rid ≠ memberId then .error .notYours
        else .ok (repoRegisterCoupon db couponId memberId signatureCode now)
      | none => .ok (repoRegisterCoupon db couponId memberId signatureCode now)

/-! ## Batch coupon soft-delete (`CouponService.delete_coupons`) -/

/-- The per-id test of `validate_coupon_ownership`: a coupon with that id
exists and its `register_id` equals the member. -/
def couponOwnedBy (db : DB) (memberId cid : Nat) : Bool :=
  match db.coupons.find? (fun c => c.couponId == cid) with
  | none => false
  | some c => c.registerId == some memberId

/-- `SQLAlchemyCouponRepository.validate_coupon_ownership`: classifies each
requested id, in request order, as valid or invalid (missing, or registered
to someone else / nobody). -/
def validateCouponOwnership (db : DB) (couponIds : List Nat) (memberId : Nat) :
    List Nat × List Nat :=
  if couponIds.isEmpty then ([], [])
  else
    (couponIds.filter (couponOwnedBy db memberId),
     couponIds.filter fun cid => !(couponOwnedBy db memberId cid))

/-- `SQLAlchemyCouponRepository.mark_coupons_as_deleted`: re-selects the
coupons of the batch that the member registered, stamps `deleted_at` on
their not-yet-deleted register logs, and returns the rows of the selected
coupons that have no `use_log_id`.  (The source returns a joined projection
of each such coupon; the embedding returns the coupon row itself.) -/
def markCouponsAsDeleted (db : DB) (couponIds : List Nat) (memberId now : Nat) :
    List Coupon × DB :=
  if couponIds.isEmpty then ([], db)
  else
    let sel := db.coupons.filter fun c =>
      couponIds.contains c.couponId && c.registerId == some memberId
    if sel.isEmpty then ([], db)
    else
      let logIds := sel.filterMap (fun c => c.registerLogId)
      let newLogs := db.registerLogs.map fun rl =>
        if logIds.contains rl.registerLogId && rl.deletedAt == none then
          { rl with deletedAt := some now }
        else rl
      (sel.filter fun c => c.useLogId == none,
       { db with registerLogs := newLogs })

/-- `CouponService.delete_coupons`: all-or-nothing batch delete.  If every id
is invalid the call fails `ERR-IVD-VALUE`; if only some are invalid it fails
`ERR-NOT-YOURS`; otherwise the repository write runs and the details of the
unused coupons of the batch are returned. -/
def serviceDeleteCoupons (db : DB) (couponIds : List Nat) (memberId now : Nat) :
    Except Err (List Coupon × DB) :=
  let v := validateCouponOwnership db couponIds memberId
  if v.2 ≠ [] then
    if v.2.length = couponIds.length then .error .invalidValue
    else .error .notYours
  else .ok (markCouponsAsDeleted db v.1 memberId now)

/-! ## Issue deletion (`SQLAlchemyCouponRepository.delete_issues_by_user`) -/

/-- Pre-decision statuses of `delete_issues_by_user`
(`pending_statuses` in the source). -/
def pendingStatuses : List String :=
  ["ISSUE_STATUS/PENDING", "ISSUE_STATUS/PAYMENT_READY"]

/-- Post-approval statuses of `delete_issues_by_user`
(`approved_statuses` in the source). -/
def approvedStatuses : List String :=
  ["ISSUE_STATUS/ISSUED", "ISSUE_STATUS/SHARED", "ISSUE_STATUS/COMPLETED"]

/-- The "already deleted for this actor" skip test of
`delete_issues_by_user`: the member's own flag is `vendor_deleted_at`, the
partner's is `partner_deleted_at`. -/
def alreadyDeletedFor (subjectType : String) (il : IssueLog) : Bool :=
  if subjectType == "member" then il.vendorDeletedAt != none
  else if subjectType == "partner" then il.partnerDeletedAt != none
  else false

/-- The ownership test of `delete_issues_by_user`: a member must be the
vendor, a partner must be the partner; any other subject type owns
nothing. -/
def hasPermissionFor (subjectType : String) (subjectId : Nat)
    (il : IssueLog) : Bool :=
  if subjectType == "member" then il.vendorId == some subjectId
  else if subjectType == "partner" then il.partnerId == some subjectId
  else false

/-- The write phase of `delete_issues_by_user`: physically delete the rows
of `toDelete`, then stamp `vendor_deleted_at` on `toSoftVendor` rows whose
flag is still null, `partner_deleted_at` on `toSoftPartner` rows, and for
`toRejectDelete` rows additionally flip the status to REJECTED and set
`decided_at`. -/
def applyIssueDeletes (db : DB)
    (toDelete toSoftVendor toSoftPartner toRejectDelete : List Nat)
    (now : Nat) : DB :=
  let logs1 := db.issueLogs.filter fun il => !(toDelete.contains il.issueId)
  let logs2 := logs1.map fun il =>
    if toSoftVendor.contains il.issueId && il.vendorDeletedAt == none then
      { il with vendorDeletedAt := some now }
    else il
  let logs3 := logs2.map fun il =>
    if toSoftPartner.contains il.issueId && il.partnerDeletedAt == none then
      { il with partnerDeletedAt := some now }
    else il
  let logs4 := logs3.map fun il =>
    if toRejectDelete.contains il.issueId && il.partnerDeletedAt == none then
      { il with status := "ISSUE_STATUS/REJECTED",
                partnerDeletedAt := some now, decidedAt := some now }
    else il
  { db with issueLogs := logs4 }

/-- `SQLAlchemyCouponRepository.delete_issues_by_user`.  Issues matching the
requested ids are fetched; ids with no row are ignored; rows already deleted
for the actor are skipped; remaining rows the actor does not own go to the
invalid list.  Owned rows are then dispatched exactly as the source does:
vendor × pending → physical `DELETE`; vendor × approved → set
`vendor_deleted_at`; partner × pending → set status `REJECTED`,
`decided_at` and `partner_deleted_at`; partner × approved → set
`partner_deleted_at`.  A `REJECTED` row matches neither status list and is
left untouched.  Returns `((valid ids, invalid ids), committed state)`. -/
def repoDeleteIssuesByUser (db : DB) (issueIds : List Nat)
    (subjectType : String) (subjectId now : Nat) :
    (List Nat × List Nat) × DB :=
  if issueIds.isEmpty then (([], []), db)
  else
    let issues := db.issueLogs.filter fun il => issueIds.contains il.issueId
    let considered := issues.filter fun il => !(alreadyDeletedFor subjectType il)
    let validIssues := considered.filter (hasPermissionFor subjectType subjectId)
    let invalidIds := (considered.filter fun il =>
      !(hasPermissionFor subjectType subjectId il)).map (·.issueId)
    let validIds := validIssues.map (·.issueId)
    let toDelete := (validIssues.filter fun il =>
      subjectType == "member" && pendingStatuses.contains il.status).map (·.issueId)
    let toSoftVendor := (validIssues.filter fun il =>
      subjectType == "member" && approvedStatuses.contains il.status).map (·.issueId)
    let toRejectDelete := (validIssues.filter fun il =>
      subjectType == "partner" && pendingStatuses.contains il.status).map (·.issueId)
    let toSoftPartner := (validIssues.filter fun il =>
      subjectType == "partner" && approvedStatuses.contains il.status).map (·.issueId)
    ((validIds, invalidIds),
     applyIssueDeletes db toDelete toSoftVendor toSoftPartner toRejectDelete now)

/-- `CouponService.delete_issues_by_user`: runs the repository delete (whose
transaction commits) and afterwards raises `ERR-NOT-YOURS` when any invalid
id was reported.  The committed state is returned alongside the outcome
because the repository commit precedes the service-level raise. -/
def serviceDeleteIssuesByUser (db : DB) (issueIds : List Nat)
    (subjectType : String) (subjectId now : Nat) : Except Err Unit × DB :=
  let r := repoDeleteIssuesByUser db issueIds subjectType subjectId now
  (if r.1.2.isEmpty then .ok () else .error .notYours, r.2)

/-! ## Minting (`decide_issue`, `create_self_issue`, `create_issue_request`) -/

/-- One allocation / product line as passed by the callers
(`{"isNew": …, "productId": …, "productName": …, "count": …}`). -/
structure AllocInput where
  isNew : Bool
  productId : Option Nat := none
  productName : Option String := none
  count : Int
deriving Repr, DecidableEq

/-- The per-line validation `CouponService.decide_issue` /
`create_issue_request` / `create_self_issue` perform: count must be
positive, an existing line needs a product id, a new line needs a non-empty
name (Python's `not productName` is false for `None` and `""`). -/
def validAllocInput (p : AllocInput) : Bool :=
  (0 < p.count : Bool) &&
    (if p.isNew then
       match p.productName with
       | some s => s != ""
       | none => false
     else p.productId.isSome)

/-- Sum of the `count` fields of an allocation list, as accumulated by the
source loops into `requested_issue_count` / `approved_issue_count`. -/
def sumCounts (ps : List AllocInput) : Int :=
  ps.foldl (fun a p => a + p.count) 0

/-- The number of coupon rows an allocation list mints
(`for _ in range(count)` runs `count.toNat` times). -/
def sumCountsNat (ps : List AllocInput) : Nat :=
  (ps.map (fun p => p.count.toNat)).sum

/-- Registration-code generation: the first candidate of the remaining
supply that is not among the already used codes, together with the rest of
the supply.  This models the `while … fetchone(): regenerate` collision
loop of the source over the stream of random 10-digit strings. -/
def pickFresh (used : List String) : List String → Option (String × List String)
  | [] => none
  | c :: rest => if used.contains c then pickFresh used rest else some (c, rest)

/-- The registration codes currently present in the `coupons` table. -/
def usedCodes (db : DB) : List String :=
  db.coupons.map (·.registrationCode)

/-- The inner minting loop shared by `decide_issue` and `create_self_issue`:
insert `n` coupon rows for the given issue/product/partner, each with a
fresh registration code and the given `created_at` / `expired_at`. -/
def mintCoupons (issueId productId partnerId now expiredAt : Nat) :
    Nat → DB → List String → Except Err (DB × List String)
  | 0, db, supply => .ok (db, supply)
  | n + 1, db, supply =>
    match pickFresh (usedCodes db) supply with
    | none => .error .codeSupplyExhausted
    | some (code, supply') =>
      let c : Coupon :=
        { couponId := db.nextCouponId, issueId := issueId,
          productId := productId, partnerId := partnerId,
          registrationCode := code, createdAt := now, expiredAt := expiredAt }
      mintCoupons issueId productId partnerId now expiredAt n
        { db with coupons := db.coupons ++ [c],
                  nextCouponId := db.nextCouponId + 1 } supply'

/-- Replace the first element satisfying `p` (the `UPDATE … LIMIT 1` of the
source). -/
def updateFirst (p : α → Bool) (f : α → α) : List α → List α
  | [] => []
  | x :: xs => if p x then f x :: xs else x :: updateFirst p f xs

/-- The `WHERE` clause `decide_issue` uses to find the REQUEST-stage line of
a *new* product (matched by name, `product_id IS NULL`). -/
def matchReqNew (issueId : Nat) (name : String) (ip : IssueProduct) : Bool :=
  ip.issueId == issueId && ip.stage == "REQUEST" &&
    ip.productId == none && ip.productName == some name

/-- The `WHERE` clause `decide_issue` uses to find the REQUEST-stage line of
an *existing* product (matched by `product_id`). -/
def matchReqExisting (issueId pid : Nat) (ip : IssueProduct) : Bool :=
  ip.issueId == issueId && ip.stage == "REQUEST" && ip.productId == some pid

/-- One iteration of the approval loop of
`SQLAlchemyCouponRepository.decide_issue`: validate the line, resolve (or
create) the product, convert the first matching REQUEST-stage
`issue_products` row to APPROVE in place, then mint `count` coupons with
`expired_at = now + valid_days`. -/
def processAlloc (issueId partnerId now validDays : Nat) (db : DB)
    (supply : List String) (p : AllocInput) : Except Err (DB × List String) :=
  if p.count ≤ 0 then .error .invalidValue
  else if p.isNew then
    match p.productName with
    | none => .error .invalidValue
    | some name =>
      if name = "" then .error .invalidValue
      else
        let pid := db.nextProductId
        let db1 := { db with
          products := db.products ++
            [({ productId := pid, partnerId := partnerId,
                productName := name } : Product)]
          nextProductId := pid + 1 }
        let db2 := { db1 with
          issueProducts := updateFirst (matchReqNew issueId name)
            (fun ip => { ip with stage := "APPROVE", productId := some pid,
                                 count := p.count }) db1.issueProducts }
        mintCoupons issueId pid partnerId now (now + validDays)
          p.count.toNat db2 supply
  else
    match p.productId with
    | none => .error .invalidValue
    | some pid =>
      if db.products.any (fun pr => pr.productId == pid && pr.partnerId == partnerId) then
        let db2 := { db with
          issueProducts := updateFirst (matchReqExisting issueId pid)
            (fun ip => { ip with stage := "APPROVE", productId := some pid,
                                 count := p.count }) db.issueProducts }
        mintCoupons issueId pid partnerId now (now + validDays)
          p.count.toNat db2 supply
      else .error .invalidValue

/-- The approval loop of `decide_issue` over the whole allocation list. -/
def processAllocs (issueId partnerId now validDays : Nat) :
    List AllocInput → DB → List String → Except Err (DB × List String)
  | [], db, supply => .ok (db, supply)
  | p :: rest, db, supply =>
    match processAlloc issueId partnerId now validDays db supply p with
    | .error e => .error e
    | .ok (db', supply') =>
      processAllocs issueId partnerId now validDays rest db' supply'

/-- `SQLAlchemyCouponRepository.decide_issue`: finds the issue owned by the
partner and not partner-deleted (`ERR-IVD-VALUE` otherwise), fails
`ERR-ALREADY-DECIDED` unless the status is still pre-decision
(`PENDING`/`PAYMENT_READY`), then either runs the approval loop and stamps
`ISSUED`/`decided_at`/`approved_issue_count`/`product_kind_count`, or, for a
rejection, requires a non-empty reason and stamps
`REJECTED`/`decided_at`/`reason`. -/
def repoDecideIssue (db : DB) (issueId partnerId : Nat) (isApproved : Bool)
    (products : List AllocInput) (reason : Option String) (now : Nat)
    (supply : List String) : Except Err DB :=
  match db.issueLogs.find? (fun il =>
      il.issueId == issueId && il.partnerId == some partnerId &&
        il.partnerDeletedAt == none) with
  | none => .error .invalidValue
  | some il =>
    if !(pendingStatuses.contains il.status) then .error .alreadyDecided
    else if isApproved then
      if products.isEmpty then .error .invalidValue
      else
        match processAllocs issueId partnerId now il.validDays products db supply with
        | .error e => .error e
        | .ok (db', _) =>
          .ok { db' with issueLogs := db'.issueLogs.map fun x =>
            if x.issueId = issueId then
              { x with status := "ISSUE_STATUS/ISSUED", decidedAt := some now,
                       approvedIssueCount := sumCounts products,
                       productKindCount := products.length }
            else x }
    else
      match reason with
      | none => .error .invalidValue
      | some r =>
        if r = "" then .error .invalidValue
        else
          .ok { db with issueLogs := db.issueLogs.map fun x =>
            if x.issueId = issueId then
              { x with status := "ISSUE_STATUS/REJECTED", decidedAt := some now,
                       reason := some r }
            else x }

/-- `CouponService.decide_issue`: validates the decision payload (non-empty
allocation list with each line well-formed for an approval, non-empty
reason for a rejection) before delegating to the repository. -/
def serviceDecideIssue (db : DB) (issueId partnerId : Nat) (isApproved : Bool)
    (products : List AllocInput) (reason : Option String) (now : Nat)
    (supply : List String) : Except Err DB :=
  if isApproved then
    if products.isEmpty then .error .invalidValue
    else if products.all validAllocInput then
      repoDecideIssue db issueId partnerId true products none now supply
    else .error .invalidValue
  else
    match reason with
    | none => .error .invalidValue
    | some r =>
      if r = "" then .error .invalidValue
      else repoDecideIssue db issueId partnerId false [] (some r) now supply

/-- The first loop of `SQLAlchemyCouponRepository.create_self_issue`:
validate each line, create new products / verify existing ones, and collect
`(product_id, count)` pairs. -/
def resolveSelfProducts (partnerId now : Nat) :
    List AllocInput → DB → Except Err (DB × List (Nat × Int))
  | [], db => .ok (db, [])
  | p :: rest, db =>
    if p.count ≤ 0 then .error .invalidValue
    else if p.isNew then
      match p.productName with
      | none => .error .invalidValue
      | some name =>
        if name = "" then .error .invalidValue
        else
          let pid := db.nextProductId
          let db1 := { db with
            products := db.products ++
              [({ productId := pid, partnerId := partnerId,
                  productName := name } : Product)]
            nextProductId := pid + 1 }
          match resolveSelfProducts partnerId now rest db1 with
          | .error e => .error e
          | .ok (db2, infos) => .ok (db2, (pid, p.count) :: infos)
    else
      match p.productId with
      | none => .error .invalidValue
      | some pid =>
        if db.products.any (fun pr => pr.productId == pid && pr.partnerId == partnerId) then
          match resolveSelfProducts partnerId now rest db with
          | .error e => .error e
          | .ok (db2, infos) => .ok (db2, (pid, p.count) :: infos)
        else .error .invalidValue

/-- The second loop of `create_self_issue`: per resolved product, insert an
APPROVE-stage `issue_products` row and mint `count` coupons. -/
def selfMintLoop (issueId partnerId now expiredAt : Nat) :
    List (Nat × Int) → DB → List String → Except Err (DB × List String)
  | [], db, supply => .ok (db, supply)
  | (pid, cnt) :: rest, db, supply =>
    let line : IssueProduct :=
      { issueProductId := db.nextIssueProductId, issueId := issueId,
        productId := some pid, productName := none,
        stage := "APPROVE", count := cnt }
    let db1 := { db with issueProducts := db.issueProducts ++ [line],
                         nextIssueProductId := db.nextIssueProductId + 1 }
    match mintCoupons issueId pid partnerId now expiredAt cnt.toNat db1 supply with
    | .error e => .error e
    | .ok (db2, supply2) =>
      selfMintLoop issueId partnerId now expiredAt rest db2 supply2

/-- `SQLAlchemyCouponRepository.create_self_issue`: the partner must exist;
products are resolved, an `issue_logs` row is inserted with
`status = ISSUED`, `vendor_id = NULL`, `requested_at = decided_at = now` and
`requested_issue_count = approved_issue_count = Σ counts`, then the
APPROVE-stage lines and the coupons (with `expired_at = now + valid_days`)
are written. -/
def repoCreateSelfIssue (db : DB) (partnerId : Nat) (title : String)
    (products : List AllocInput) (validDays now : Nat)
    (supply : List String) : Except Err DB :=
  if !(db.partnerUsers.contains partnerId) then .error .invalidValue
  else
    match resolveSelfProducts partnerId now products db with
    | .error e => .error e
    | .ok (db1, infos) =>
      let approvedCount := sumCounts products
      let iid := db1.nextIssueId
      let issue : IssueLog :=
        { issueId := iid, title := title, vendorId := none,
          partnerId := some partnerId, status := "ISSUE_STATUS/ISSUED",
          requestedAt := now, decidedAt := some now, validDays := validDays,
          requestedIssueCount := approvedCount,
          approvedIssueCount := approvedCount,
          productKindCount := products.length }
      let db2 := { db1 with issueLogs := db1.issueLogs ++ [issue],
                            nextIssueId := iid + 1 }
      match selfMintLoop iid partnerId now (now + validDays) infos db2 supply with
      | .error e => .error e
      | .ok (db3, _) => .ok db3

/-- `CouponService.create_self_issue`: requires a non-empty, line-wise valid
product list before delegating to the repository. -/
def serviceCreateSelfIssue (db : DB) (partnerId : Nat) (title : String)
    (products : List AllocInput) (validDays now : Nat)
    (supply : List String) : Except Err DB :=
  if products.isEmpty then .error .invalidValue
  else if products.all validAllocInput then
    repoCreateSelfIssue db partnerId title products validDays now supply
  else .error .invalidValue

/-- The product-processing loop of
`SQLAlchemyCouponRepository.create_issue_request`: for a new partner only
new named products are allowed and none are materialized; for an existing
partner new products are inserted and existing ones must belong to the
partner.  Returns the collected REQUEST-line data. -/
def resolveRequestProducts (partnerIsNew : Bool) (finalPartnerId : Option Nat)
    (now : Nat) :
    List AllocInput → DB → Except Err (DB × List (Option Nat × Option String × Int))
  | [], db => .ok (db, [])
  | p :: rest, db =>
    if p.count ≤ 0 then .error .invalidValue
    else if partnerIsNew then
      if p.isNew then
        match p.productName with
        | none => .error .invalidValue
        | some name =>
          if name = "" then .error .invalidValue
          else
            match resolveRequestProducts partnerIsNew finalPartnerId now rest db with
            | .error e => .error e
            | .ok (db2, infos) => .ok (db2, (none, some name, p.count) :: infos)
      else .error .invalidValue
    else
      if p.isNew then
        match p.productName with
        | none => .error .invalidValue
        | some name =>
          if name = "" then .error .invalidValue
          else
            let pid := db.nextProductId
            let db1 := { db with
              products := db.products ++
                [({ productId := pid,
                    partnerId := finalPartnerId.getD 0,
                    productName := name } : Product)]
              nextProductId := pid + 1 }
            match resolveRequestProducts partnerIsNew finalPartnerId now rest db1 with
            | .error e => .error e
            | .ok (db2, infos) => .ok (db2, (some pid, none, p.count) :: infos)
      else
        match p.productId with
        | none => .error .invalidValue
        | some pid =>
          if db.products.any (fun pr =>
              pr.productId == pid && some pr.partnerId == finalPartnerId) then
            match resolveRequestProducts partnerIsNew finalPartnerId now rest db with
            | .error e => .error e
            | .ok (db2, infos) => .ok (db2, (some pid, none, p.count) :: infos)
          else .error .invalidValue

/-- Phone normalization of `create_issue_request`
(`partner_phone.replace("-", "").replace(" ", "")`). -/
def normalizePhone (s : String) : String :=
  (s.replace "-" "").replace " " ""

/-- `SQLAlchemyCouponRepository.create_issue_request`: resolves the partner
reference (an existing partner must be present in `partner_users`; a new one
stays unmaterialized with a normalized phone), processes the product lines,
inserts the `issue_logs` row with `status = PENDING` and
`requested_issue_count = Σ counts`, and writes one REQUEST-stage
`issue_products` row per line. -/
def repoCreateIssueRequest (db : DB) (vendorId : Nat) (title : String)
    (partnerIsNew : Bool) (partnerId : Option Nat)
    (partnerName partnerPhone : Option String)
    (products : List AllocInput) (validDays now : Nat) : Except Err DB :=
  let partnerRes : Except Err (Option Nat × Option String × Option String) :=
    if partnerIsNew then
      match partnerName, partnerPhone with
      | some nm, some ph =>
        if nm = "" ∨ ph = "" then .error .invalidValue
        else .ok (none, some nm, some (normalizePhone ph))
      | _, _ => .error .invalidValue
    else
      match partnerId with
      | none => .error .invalidValue
      | some pid =>
        if db.partnerUsers.contains pid then .ok (some pid, none, none)
        else .error .invalidValue
  match partnerRes with
  | .error e => .error e
  | .ok (finalPartnerId, finalPartnerName, finalPartnerPhone) =>
    match resolveRequestProducts partnerIsNew finalPartnerId now products db with
    | .error e => .error e
    | .ok (db1, infos) =>
      let iid := db1.nextIssueId
      let issue : IssueLog :=
        { issueId := iid, title := title, vendorId := some vendorId,
          partnerId := finalPartnerId, partnerName := finalPartnerName,
          partnerPhone := finalPartnerPhone,
          status := "ISSUE_STATUS/PENDING", requestedAt := now,
          validDays := validDays,
          requestedIssueCount := sumCounts products,
          approvedIssueCount := 0,
          productKindCount := products.length }
      let db2 := { db1 with issueLogs := db1.issueLogs ++ [issue],
                            nextIssueId := iid + 1 }
      let insertLine := fun (acc : DB) (info : Option Nat × Option String × Int) =>
        { acc with
          issueProducts := acc.issueProducts ++
            [({ issueProductId := acc.nextIssueProductId, issueId := iid,
                productId := info.1, productName := info.2.1,
                stage := "REQUEST", count := info.2.2 } : IssueProduct)]
          nextIssueProductId := acc.nextIssueProductId + 1 }
      .ok (infos.foldl insertLine db2)

/-! ## Payment QR and settlement

The `SQLAlchemyCouponRepository` methods `find_coupon_by_id_for_payment_qr`,
`expire_payment_qr_by_coupon_id`, `create_payment_qr`,
`find_coupon_by_payment_code` and `confirm_payment_transaction` are called
from `CouponService` but their definitions are not under `src/`; they are
modelled from the spec (§4.4, §4.5) below.  Every present repository method
opens its own session and commits at the end, so the modelled ones commit
per call as well. -/

/-- `SQLAlchemyCouponRepository.find_coupon_by_id` (this one *is* in the
source): the row is only visible while its register log, if any, is not
soft-deleted (`rl.deleted_at IS NULL OR rl.register_log_id IS NULL`). -/
def findCouponById (db : DB) (couponId : Nat) : Option Coupon :=
  db.coupons.find? fun c =>
    c.couponId == couponId &&
      (match c.registerLogId with
       | none => true
       | some lid =>
         match db.registerLogs.find? (fun rl => rl.registerLogId == lid) with
         | none => true
         | some rl => rl.deletedAt == none)

/-- Modelled from the spec: repository method
`find_coupon_by_id_for_payment_qr` is absent from `src/`.  Per §4.4 the
broker needs the coupon only when `register_id` equals the owner, which is
how `create_payment_qr` interprets a `None` result. -/
def findCouponByIdForPaymentQr (db : DB) (couponId memberId : Nat) :
    Option Coupon :=
  db.coupons.find? fun c =>
    c.couponId == couponId && c.registerId == some memberId

/-- Modelled from the spec: repository method
`expire_payment_qr_by_coupon_id` is absent from `src/`.  §4.4: "first
expires any still-valid PaymentQr already issued for this coupon"; a
still-valid token has `now < expired_at` and expiring it sets its expiry to
`now`. -/
def expirePaymentQrByCouponId (db : DB) (couponId now : Nat) : DB :=
  { db with paymentQrs := db.paymentQrs.map fun q =>
      if q.couponId == couponId && decide (now < q.expiredAt) then
        { q with expiredAt := now }
      else q }

/-- Modelled from the spec: repository method `create_payment_qr` (the
insert of the `payment_code` record) is absent from `src/`. -/
def repoCreatePaymentQr (db : DB) (couponId : Nat) (paymentCode : String)
    (expiredAt : Nat) : DB :=
  { db with paymentQrs := db.paymentQrs ++
      [{ paymentCode := paymentCode, couponId := couponId,
         expiredAt := expiredAt }] }

/-- The response of `create_payment_qr` (image URL plus literal expiry). -/
structure PaymentQrOut where
  couponId : Nat
  paymentCode : String
  expiredAt : Nat
deriving Repr, DecidableEq

/-- `CouponService.create_payment_qr`.  Ownership and validity checks as in
the source; then the still-valid tokens of the coupon are expired, the new
`payment_code` row is stored (step 6, committed), and only afterwards the
media collaborator is called (step 7, outcome abstracted as `mediaOk`); its
failure raises after the row is already committed.  The pair returned is
`(outcome, committed state)`. -/
def createPaymentQr (db : DB) (couponId memberId now : Nat)
    (paymentCode : String) (mediaOk : Bool) : Except Err PaymentQrOut × DB :=
  match findCouponByIdForPaymentQr db couponId memberId with
  | none =>
    match findCouponById db couponId with
    | none => (.error .invalidValue, db)
    | some _ => (.error .notYours, db)
  | some c =>
    if c.useLogId ≠ none then (.error .invalidValue, db)
    else if c.expiredAt < now then (.error .invalidValue, db)
    else
      let db1 := expirePaymentQrByCouponId db couponId now
      let qrExpiredAt := now + 60
      let db2 := repoCreatePaymentQr db1 couponId paymentCode qrExpiredAt
      if mediaOk then
        (.ok { couponId := couponId, paymentCode := paymentCode,
               expiredAt := qrExpiredAt }, db2)
      else (.error .mediaRenderFailed, db2)

/-- Modelled from the spec: the payment-code resolution used by
`find_coupon_by_payment_code` / `confirm_payment_transaction`, both absent
from `src/`.  §4.5: fails `InvalidValue` if the code is unknown or the
token expired, otherwise yields the underlying coupon. -/
def resolvePaymentCode (db : DB) (paymentCode : String) (now : Nat) :
    Except Err Coupon :=
  match db.paymentQrs.find? (fun q => q.paymentCode == paymentCode) with
  | none => .error .invalidValue
  | some q =>
    if q.expiredAt < now then .error .invalidValue
    else
      match db.coupons.find? (fun c => c.couponId == q.couponId) with
      | none => .error .invalidValue
      | some c => .ok c

/-- Modelled from the spec: repository method `confirm_payment_transaction`
is absent from `src/`.  §4.5: re-resolves the code; fails `AlreadyUsed` if
the coupon already has a `use_log_id`; otherwise inserts a `use_logs` row,
sets `coupon.use_log_id`, and if every coupon of the issue is now used,
marks the issue `COMPLETED` (the idempotent completion rollup). -/
def confirmPaymentTransaction (db : DB) (paymentCode : String) (now : Nat) :
    Except Err DB :=
  match resolvePaymentCode db paymentCode now with
  | .error e => .error e
  | .ok c =>
    if c.useLogId ≠ none then .error .alreadyUsed
    else
      let ulid := db.nextUseLogId
      let db1 := { db with
        useLogs := db.useLogs ++
          [({ useLogId := ulid, couponId := c.couponId,
              usedAt := now } : UseLog)]
        nextUseLogId := ulid + 1
        coupons := db.coupons.map (fun (x : Coupon) =>
          if x.couponId = c.couponId then { x with useLogId := some ulid }
          else x) }
      if db1.coupons.all (fun x => x.issueId != c.issueId || x.useLogId != none) then
        .ok { db1 with issueLogs := db1.issueLogs.map (fun (il : IssueLog) =>
          if il.issueId = c.issueId then
            { il with status := "ISSUE_STATUS/COMPLETED" }
          else il) }
      else .ok db1

/-- The payment tokens of a coupon that are still valid at `now`
(spec §3: an unexpired `PaymentQr`). -/
def activeQrsFor (db : DB) (couponId now : Nat) : List PaymentQr :=
  db.paymentQrs.filter fun q => q.couponId == couponId && decide (now < q.expiredAt)

/-- Relation between an `issue_products` row before and after a decision:
either untouched, or converted in place from REQUEST to APPROVE stage
(same primary key and issue). -/
def convertedLine (old new : IssueProduct) : Prop :=
  new = old ∨ (old.stage = "REQUEST" ∧ new.stage = "APPROVE" ∧
    new.issueProductId = old.issueProductId ∧ new.issueId = old.issueId)

/-- One successful minting operation: a partner approval
(`decide_issue`) or a partner self-issue (`create_self_issue`). -/
def mintOp (db db' : DB) : Prop :=
  (∃ issueId partnerId isApproved products reason now supply,
     serviceDecideIssue db issueId partnerId isApproved products reason now supply
       = .ok db') ∨
  (∃ partnerId title products validDays now supply,
     serviceCreateSelfIssue db partnerId title products validDays now supply
       = .ok db')

/-! ## Concrete states used to exercise the operations -/

/-- Extract the success state of an operation (the empty store as a dummy
for the error case, which the accompanying equations rule out). -/
def exceptD (r : Except Err DB) : DB :=
  match r with
  | .ok d => d
  | .error _ => {}

/-- A store with one coupon already registered by member 7 (register log 1)
and a signature on file. -/
def regDb : DB :=
  { coupons := [{ couponId := 1, issueId := 1, productId := 1, partnerId := 1,
                  registrationCode := "ABC", registerId := some 7,
                  registerLogId := some 1, signatureCode := some "s",
                  createdAt := 0, expiredAt := 100 }],
    registerLogs := [{ registerLogId := 1, registerUserId := 7, registeredAt := 0 }],
    nextRegisterLogId := 2 }

/-- A store with a single REJECTED issue owned by vendor 1 / partner 2,
deleted by neither side. -/
def rejDb : DB :=
  { issueLogs := [{ issueId := 1, title := "t", vendorId := some 1,
                    partnerId := some 2, status := "ISSUE_STATUS/REJECTED",
                    requestedAt := 0, validDays := 30 }] }

/-- A store with one registered, unused, unexpired coupon and a live
payment token "PC" for it. -/
def payConfirmDb : DB :=
  { coupons := [{ couponId := 1, issueId := 1, productId := 1, partnerId := 1,
                  registrationCode := "R", registerId := some 7,
                  createdAt := 0, expiredAt := 1000 }],
    paymentQrs := [{ paymentCode := "PC", couponId := 1, expiredAt := 100 }] }

/-- `payConfirmDb` after a first successful `confirm("PC")` at time 10. -/
def payConfirmDb1 : DB := exceptD (confirmPaymentTransaction payConfirmDb "PC" 10)

/-- A store with one registered coupon and no payment tokens, for the
media-failure scenario of QR creation. -/
def payMediaDb : DB :=
  { coupons := [{ couponId := 1, issueId := 1, productId := 1, partnerId := 1,
                  registrationCode := "R", registerId := some 7,
                  createdAt := 0, expiredAt := 1000 }] }

/-- A store with one registered coupon that already has a still-valid
payment token "OLD". -/
def payQrDb : DB :=
  { coupons := [{ couponId := 1, issueId := 1, productId := 1, partnerId := 1,
                  registrationCode := "R", registerId := some 7,
                  createdAt := 0, expiredAt := 1000 }],
    paymentQrs := [{ paymentCode := "OLD", couponId := 1, expiredAt := 50 }] }

/-- A store where member 7 registered coupons 1 (unused) and 2 (used) and
member 8 registered coupon 3. -/
def batchDb : DB :=
  { coupons := [{ couponId := 1, issueId := 1, productId := 1, partnerId := 1,
                  registrationCode := "A", registerId := some 7,
                  registerLogId := some 1, createdAt := 0, expiredAt := 100 },
                { couponId := 2, issueId := 1, productId := 1, partnerId := 1,
                  registrationCode := "B", registerId := some 7,
                  registerLogId := some 2, useLogId := some 1,
                  createdAt := 0, expiredAt := 100 },
                { couponId := 3, issueId := 1, productId := 1, partnerId := 1,
                  registrationCode := "C", registerId := some 8,
                  registerLogId := some 3, createdAt := 0, expiredAt := 100 }],
    registerLogs := [{ registerLogId := 1, registerUserId := 7, registeredAt := 0 },
                     { registerLogId := 2, registerUserId := 7, registeredAt := 0 },
                     { registerLogId := 3, registerUserId := 8, registeredAt := 0 }],
    useLogs := [{ useLogId := 1, couponId := 2, usedAt := 1 }] }

/-- Registered partner 2 with two products A and B, no issues yet. -/
def reqBase : DB :=
  { partnerUsers := [2],
    products := [{ productId := 10, partnerId := 2, productName := "A" },
                 { productId := 11, partnerId := 2, productName := "B" }],
    nextProductId := 12 }

/-- The allocation list `[A×3, B×2]` of the spec scenario. -/
def reqAllocs : List AllocInput :=
  [{ isNew := false, productId := some 10, count := 3 },
   { isNew := false, productId := some 11, count := 2 }]

/-- `reqBase` after vendor 1 files the `[A×3, B×2]` request. -/
def reqDb : DB :=
  exceptD (repoCreateIssueRequest reqBase 1 "T" false (some 2) none none reqAllocs 30 100)

/-- A supply of six candidate registration codes. -/
def codeSupply : List String := ["c1", "c2", "c3", "c4", "c5", "c6"]

/-- `reqDb` after partner 2 approves with the same `[A×3, B×2]` allocation
at time 200. -/
def reqDecidedDb : DB :=
  exceptD (serviceDecideIssue reqDb 1 2 true reqAllocs none 200 codeSupply)

/-- Registered partner 2 with product A and one pre-existing coupon, for
exercising a self-issue mint. -/
def selfBase : DB :=
  { partnerUsers := [2],
    products := [{ productId := 10, partnerId := 2, productName := "A" }],
    coupons := [{ couponId := 1, issueId := 1, productId := 10, partnerId := 2,
                  registrationCode := "c1", createdAt := 0, expiredAt := 100 }],
    nextCouponId := 2 }

/-- A single-line allocation for a self-issue on `selfBase`. -/
def selfAllocs : List AllocInput :=
  [{ isNew := false, productId := some 10, count := 2 }]

/-- A candidate-code supply whose first entry collides with the code
already minted in `selfBase`, exercising the retry loop. -/
def selfSupply : List String := ["c1", "x", "y"]

/-- `selfBase` after the partner self-issues two coupons of product A. -/
def selfAfterDb : DB :=
  exceptD (serviceCreateSelfIssue selfBase 2 "T" selfAllocs 30 100 selfSupply)

/-- A store for the issue-deletion skip rules: issue 1 is owned by vendor 1
and already vendor-deleted, issue 2 is owned by vendor 9. -/
def delIssuesDb : DB :=
  { issueLogs := [{ issueId := 1, title := "a", vendorId := some 1,
                    partnerId := some 2, status := "ISSUE_STATUS/ISSUED",
                    requestedAt := 0, validDays := 30,
                    vendorDeletedAt := some 3 },
                  { issueId := 2, title := "b", vendorId := some 9,
                    partnerId := some 2, status := "ISSUE_STATUS/ISSUED",
                    requestedAt := 0, validDays := 30 }] }

/-! ## Generic list lemmas -/

/-- Two members of a list with equal keys are equal when the keys are
duplicate-free. -/
theorem mem_eq_of_nodup_key {α β : Type} {f : α → β} {l : List α}
    (hn : (l.map f).Nodup) {x y : α} (hx : x ∈ l) (hy : y ∈ l)
    (h : f x = f y) : x = y :=
  List.inj_on_of_nodup_map hn hx hy h

/-- Filtering a duplicate-free-keyed list for one member's key yields
exactly that member. -/
theorem filter_beq_key_single {α β : Type} [DecidableEq β] (f : α → β)
    {l : List α} (hn : (l.map f).Nodup) {a : α} (ha : a ∈ l) :
    l.filter (fun x => f x == f a) = [a] := by
  induction l with
  | nil => cases ha
  | cons b t ih =>
    rw [List.map_cons, List.nodup_cons] at hn
    rcases List.mem_cons.mp ha with rfl | hat
    · rw [List.filter_cons, if_pos (by simp)]
      have ht : t.filter (fun x => f x == f a) = [] := by
        rw [List.filter_eq_nil_iff]
        intro x hx hfx
        exact hn.1 (by
          have : f x = f a := by simpa using hfx
          exact this ▸ List.mem_map_of_mem f hx)
      rw [ht]
    · have hba : ¬ (f b == f a) = true := by
        simp only [beq_iff_eq]
        intro h
        exact hn.1 (h ▸ List.mem_map_of_mem f hat)
      rw [List.filter_cons, if_neg hba]
      exact ih hn.2 hat

/-- A status in `approvedStatuses` is not in `pendingStatuses`. -/
theorem approved_not_pending {s : String}
    (h : approvedStatuses.contains s = true) :
    pendingStatuses.contains s = false := by
  simp only [approvedStatuses, List.contains_cons, List.contains_nil,
    Bool.or_eq_true, beq_iff_eq] at h
  rcases h with h | h | h | h <;> first | subst h; rfl | cases h

/-- A status in `pendingStatuses` is not in `approvedStatuses`. -/
theorem pending_not_approved {s : String}
    (h : pendingStatuses.contains s = true) :
    approvedStatuses.contains s = false := by
  simp only [pendingStatuses, List.contains_cons, List.contains_nil,
    Bool.or_eq_true, beq_iff_eq] at h
  rcases h with h | h | h <;> first | subst h; rfl | cases h

/-! ## Behavior of the issue-delete write phase -/

/-- With nothing classified, the write phase is the identity. -/
theorem applyIssueDeletes_nil (db : DB) (now : Nat) :
    applyIssueDeletes db [] [] [] [] now = db := by
  simp [applyIssueDeletes]

/-- Physical deletion of a single id filters that id out and touches
nothing else. -/
theorem applyIssueDeletes_delete_single (db : DB) (i now : Nat) :
    applyIssueDeletes db [i] [] [] [] now
      = { db with issueLogs := db.issueLogs.filter fun x => x.issueId != i } := by
  simp only [applyIssueDeletes]
  simp
  exact List.filter_congr (fun x _ => by simp [bne, beq_eq_decide])

/-- Vendor-side soft delete of a single issue stamps only that row's
`vendor_deleted_at`. -/
theorem applyIssueDeletes_softVendor_single (db : DB) (now : Nat)
    (il : IssueLog) (hn : (db.issueLogs.map (·.issueId)).Nodup)
    (hmem : il ∈ db.issueLogs) (hnd : il.vendorDeletedAt = none) :
    applyIssueDeletes db [] [il.issueId] [] [] now
      = { db with issueLogs := db.issueLogs.map fun x =>
            if x.issueId = il.issueId then { x with vendorDeletedAt := some now }
            else x } := by
  simp only [applyIssueDeletes]
  simp
  intro x hx
  by_cases hxi : x.issueId = il.issueId
  · have hxil : x = il := mem_eq_of_nodup_key hn hx hmem hxi
    subst hxil
    simp [hnd]
  · simp [hxi]

/-- Partner-side soft delete of a single issue stamps only that row's
`partner_deleted_at`. -/
theorem applyIssueDeletes_softPartner_single (db : DB) (now : Nat)
    (il : IssueLog) (hn : (db.issueLogs.map (·.issueId)).Nodup)
    (hmem : il ∈ db.issueLogs) (hnd : il.partnerDeletedAt = none) :
    applyIssueDeletes db [] [] [il.issueId] [] now
      = { db with issueLogs := db.issueLogs.map fun x =>
            if x.issueId = il.issueId then { x with partnerDeletedAt := some now }
            else x } := by
  simp only [applyIssueDeletes]
  simp
  intro x hx
  by_cases hxi : x.issueId = il.issueId
  · have hxil : x = il := mem_eq_of_nodup_key hn hx hmem hxi
    subst hxil
    simp [hnd]
  · simp [hxi]

/-- Reject-and-delete of a single pending issue flips only that row to
REJECTED with `decided_at` and `partner_deleted_at` stamped. -/
theorem applyIssueDeletes_reject_single (db : DB) (now : Nat)
    (il : IssueLog) (hn : (db.issueLogs.map (·.issueId)).Nodup)
    (hmem : il ∈ db.issueLogs) (hnd : il.partnerDeletedAt = none) :
    applyIssueDeletes db [] [] [] [il.issueId] now
      = { db with issueLogs := db.issueLogs.map fun x =>
            if x.issueId = il.issueId then
              { x with status := "ISSUE_STATUS/REJECTED",
                       partnerDeletedAt := some now, decidedAt := some now }
            else x } := by
  simp only [applyIssueDeletes]
  simp
  intro x hx
  by_cases hxi : x.issueId = il.issueId
  · have hxil : x = il := mem_eq_of_nodup_key hn hx hmem hxi
    subst hxil
    simp [hnd]
  · simp [hxi]

/-! ## Claim C5 — issue deletion state machine -/

/-- Claim C5 is false as stated on REJECTED issues: `rejDb` holds one
REJECTED issue owned by vendor 1 / partner 2 with neither deletion flag
set; the claim says deleting it sets the actor's flag (`vendor_deleted_at`
resp. `partner_deleted_at`), yet for both actors the call reports the id
as valid and returns the store entirely unchanged. -/
theorem delete_rejected_issue_noop_cex :
    repoDeleteIssuesByUser rejDb [1] "member" 1 9 = (([1], []), rejDb) ∧
    repoDeleteIssuesByUser rejDb [1] "partner" 2 9 = (([1], []), rejDb) ∧
    (∀ x ∈ rejDb.issueLogs, x.vendorDeletedAt = none ∧
       x.partnerDeletedAt = none ∧ x.status = "ISSUE_STATUS/REJECTED") :=
  ⟨rfl, rfl, by decide⟩

/-- Claim C5 (amended): the status-by-actor delete state machine as
implemented.  For an issue the actor owns and has not already deleted: a
pre-decision (PENDING/PAYMENT_READY) issue deleted by its vendor is
physically removed; one deleted by its partner gets status REJECTED,
`decided_at = now` and `partner_deleted_at = now`; an approved-side
(ISSUED/SHARED/COMPLETED) issue gets only the calling side's deletion
stamp with the row retained; a REJECTED issue is left entirely unchanged
by either side's delete (the claim wrongly said it receives the
soft-delete stamp).  The map/filter forms also exhibit that physical
removal happens in no other combination, that no other row is touched, and
that neither side's delete ever writes the other side's flag. -/
theorem delete_issue_state_machine_amended
    (db : DB) (sid now : Nat) (il : IssueLog)
    (hn : (db.issueLogs.map (·.issueId)).Nodup)
    (hmem : il ∈ db.issueLogs) :
    ((il.vendorId = some sid ∧ il.vendorDeletedAt = none) →
      (pendingStatuses.contains il.status = true →
        repoDeleteIssuesByUser db [il.issueId] "member" sid now
          = (([il.issueId], []),
             { db with issueLogs :=
                 db.issueLogs.filter fun x => x.issueId != il.issueId })) ∧
      (approvedStatuses.contains il.status = true →
        repoDeleteIssuesByUser db [il.issueId] "member" sid now
          = (([il.issueId], []),
             { db with issueLogs := db.issueLogs.map fun x =>
                 if x.issueId = il.issueId then
                   { x with vendorDeletedAt := some now } else x })) ∧
      (il.status = "ISSUE_STATUS/REJECTED" →
        repoDeleteIssuesByUser db [il.issueId] "member" sid now
          = (([il.issueId], []), db))) ∧
    ((il.partnerId = some sid ∧ il.partnerDeletedAt = none) →
      (pendingStatuses.contains il.status = true →
        repoDeleteIssuesByUser db [il.issueId] "partner" sid now
          = (([il.issueId], []),
             { db with issueLogs := db.issueLogs.map fun x =>
                 if x.issueId = il.issueId then
                   { x with status := "ISSUE_STATUS/REJECTED",
                            partnerDeletedAt := some now,
                            decidedAt := some now } else x })) ∧
      (approvedStatuses.contains il.status = true →
        repoDeleteIssuesByUser db [il.issueId] "partner" sid now
          = (([il.issueId], []),
             { db with issueLogs := db.issueLogs.map fun x =>
                 if x.issueId = il.issueId then
                   { x with partnerDeletedAt := some now } else x })) ∧
      (il.status = "ISSUE_STATUS/REJECTED" →
        repoDeleteIssuesByUser db [il.issueId] "partner" sid now
          = (([il.issueId], []), db))) := by
  have hfilter : db.issueLogs.filter (fun x => [il.issueId].contains x.issueId)
      = [il] := by
    have hfun : ∀ x : IssueLog,
        ([il.issueId].contains x.issueId) = (x.issueId == il.issueId) := by
      intro x; simp [beq_eq_decide]
    calc db.issueLogs.filter (fun x => [il.issueId].contains x.issueId)
        = db.issueLogs.filter (fun x => x.issueId == il.issueId) :=
          List.filter_congr (fun x _ => hfun x)
      _ = [il] := filter_beq_key_single (fun x => x.issueId) hn hmem
  constructor
  · rintro ⟨hv, hnd⟩
    have e1 : alreadyDeletedFor "member" il = false := by
      simp [alreadyDeletedFor, hnd]
    have e2 : hasPermissionFor "member" sid il = true := by
      simp [hasPermissionFor, hv]
    have e3 : (("member" : String) == "partner") = false := rfl
    refine ⟨?_, ?_, ?_⟩
    · intro hst
      have hstm : il.status ∈ pendingStatuses := by simpa using hst
      have hna : il.status ∉ approvedStatuses := by
        simpa using pending_not_approved hst
      unfold repoDeleteIssuesByUser
      rw [if_neg (by simp), hfilter]
      simp [e1, e2, e3, hstm, hna, applyIssueDeletes_delete_single]
    · intro hst
      have hstm : il.status ∈ approvedStatuses := by simpa using hst
      have hnp : il.status ∉ pendingStatuses := by
        simpa using approved_not_pending hst
      unfold repoDeleteIssuesByUser
      rw [if_neg (by simp), hfilter]
      simp [e1, e2, e3, hstm, hnp,
        applyIssueDeletes_softVendor_single db now il hn hmem hnd]
    · intro hst
      have hrp : il.status ∉ pendingStatuses := by rw [hst]; decide
      have hra : il.status ∉ approvedStatuses := by rw [hst]; decide
      unfold repoDeleteIssuesByUser
      rw [if_neg (by simp), hfilter]
      simp [e1, e2, e3, hrp, hra, applyIssueDeletes_nil]
  · rintro ⟨hp, hnd⟩
    have e1 : alreadyDeletedFor "partner" il = false := by
      simp [alreadyDeletedFor, hnd]
    have e2 : hasPermissionFor "partner" sid il = true := by
      simp [hasPermissionFor, hp]
    have e3 : (("partner" : String) == "member") = false := rfl
    refine ⟨?_, ?_, ?_⟩
    · intro hst
      have hstm : il.status ∈ pendingStatuses := by simpa using hst
      have hna : il.status ∉ approvedStatuses := by
        simpa using pending_not_approved hst
      unfold repoDeleteIssuesByUser
      rw [if_neg (by simp), hfilter]
      simp [e1, e2, e3, hstm, hna,
        applyIssueDeletes_reject_single db now il hn hmem hnd]
    · intro hst
      have hstm : il.status ∈ approvedStatuses := by simpa using hst
      have hnp : il.status ∉ pendingStatuses := by
        simpa using approved_not_pending hst
      unfold repoDeleteIssuesByUser
      rw [if_neg (by simp), hfilter]
      simp [e1, e2, e3, hstm, hnp,
        applyIssueDeletes_softPartner_single db now il hn hmem hnd]
    · intro hst
      have hrp : il.status ∉ pendingStatuses := by rw [hst]; decide
      have hra : il.status ∉ approvedStatuses := by rw [hst]; decide
      unfold repoDeleteIssuesByUser
      rw [if_neg (by simp), hfilter]
      simp [e1, e2, e3, hrp, hra, applyIssueDeletes_nil]

/-- Witness for the amended C5 theorem: on `rejDb`, the REJECTED issue's
vendor delete leaves the store unchanged, and flipping its status would
not — instantiated here through the theorem at the REJECTED clause. -/
theorem delete_issue_state_machine_amended_witness :
    (repoDeleteIssuesByUser rejDb [1] "member" 1 9).2 = rejDb := by
  have h := delete_issue_state_machine_amended rejDb 1 9
      { issueId := 1, title := "t", vendorId := some 1, partnerId := some 2,
        status := "ISSUE_STATUS/REJECTED", requestedAt := 0, validDays := 30 }
      (by decide) (by decide)
  exact congrArg Prod.snd ((h.1 ⟨rfl, rfl⟩).2.2 rfl)

/-! ## Claim C2 — registration compare-and-set -/

/-- Claim C2 is false as stated: member 7 already registered coupon 1 (one
register log on file), the claim says re-registering with the same consumer
is a no-op with no new `RegisterLog` and no field changed, yet the call
succeeds with *two* register logs and a re-pointed `register_log_id` and
`signature_code`. -/
theorem register_coupon_idempotent_cex :
    registerCoupon regDb 1 "ABC" "s2" 7 5 =
      .ok (repoRegisterCoupon regDb 1 7 "s2" 5) ∧
    regDb.registerLogs.length = 1 ∧
    (repoRegisterCoupon regDb 1 7 "s2" 5).registerLogs.length = 2 ∧
    (repoRegisterCoupon regDb 1 7 "s2" 5).coupons.map (fun c => c.signatureCode) =
      [some "s2"] ∧
    regDb.coupons.map (fun c => c.signatureCode) = [some "s"] :=
  ⟨rfl, rfl, rfl, rfl, rfl⟩

/-- Claim C2 (amended): `register` fails `NotYours` when the coupon is
registered to a different consumer; in every other case — including a retry
by the *same* consumer, which is therefore not a state no-op — it succeeds,
appends a fresh `RegisterLog`, and points the coupon's `register_id`,
`register_log_id` and `signature_code` at it. -/
theorem register_coupon_cas_amended
    (db : DB) (cid mid now : Nat) (code sig : String) (c : Coupon)
    (hfind : findCouponByIdForRegister db cid = some c)
    (hcode : c.registrationCode = code) :
    (∀ rid, c.registerId = some rid → rid ≠ mid →
       registerCoupon db cid code sig mid now = .error .notYours) ∧
    ((c.registerId = none ∨ c.registerId = some mid) →
       ∃ db', registerCoupon db cid code sig mid now = .ok db' ∧
         db'.registerLogs = db.registerLogs ++
           [{ registerLogId := db.nextRegisterLogId, registerUserId := mid,
              registeredAt := now, deletedAt := none }] ∧
         db'.coupons = db.coupons.map (fun x =>
           if x.couponId = cid then
             { x with registerId := some mid,
                      registerLogId := some db.nextRegisterLogId,
                      signatureCode := some sig }
           else x) ∧
         db'.useLogs = db.useLogs ∧ db'.issueLogs = db.issueLogs ∧
         db'.issueProducts = db.issueProducts ∧
         db'.paymentQrs = db.paymentQrs) := by
  constructor
  · intro rid hrid hne
    simp [registerCoupon, hfind, hcode, hrid, hne]
  · intro hcase
    refine ⟨repoRegisterCoupon db cid mid sig now, ?_, ?_, ?_, ?_, ?_, ?_, ?_⟩
    · rcases hcase with h | h <;> simp [registerCoupon, hfind, hcode, h]
    all_goals simp [repoRegisterCoupon]

/-- Witness for the amended C2 theorem: applied to `regDb`, same consumer 7,
a second register call succeeds and adds a register log. -/
theorem register_coupon_cas_amended_witness :
    ∃ db', registerCoupon regDb 1 "ABC" "s2" 7 5 = .ok db' ∧
      db'.registerLogs.length = regDb.registerLogs.length + 1 := by
  obtain ⟨db', heq, hlogs, -⟩ :=
    (register_coupon_cas_amended regDb 1 7 5 "ABC" "s2" _ rfl rfl).2 (Or.inr rfl)
  exact ⟨db', heq, by rw [hlogs]; simp⟩

/-! ## Claim C3 — QR creation under media failure -/

/-- Claim C3 is false as stated: on `payMediaDb` (one registered, unused,
unexpired coupon, no tokens yet), a `createQr` whose media rendering fails
does fail as a whole, but the `payment_code` record stored by that very
invocation remains in the committed state — not "as if the call never
happened". -/
theorem create_payment_qr_orphan_cex :
    (createPaymentQr payMediaDb 1 7 10 "PC" false).1 = .error .mediaRenderFailed ∧
    (createPaymentQr payMediaDb 1 7 10 "PC" false).2.paymentQrs =
      [{ paymentCode := "PC", couponId := 1, expiredAt := 70 }] ∧
    payMediaDb.paymentQrs = [] :=
  ⟨rfl, rfl, rfl⟩

/-- Claim C3 (amended): when the media collaborator fails, QR creation as a
whole fails, but the `payment_code` record stored by the invocation
survives in the committed state (on top of the expiry of the coupon's
previously valid tokens); no compensating deletion takes place. -/
theorem create_payment_qr_media_failure (db : DB) (cid mid now : Nat)
    (pc : String) (c : Coupon)
    (hfind : findCouponByIdForPaymentQr db cid mid = some c)
    (hunused : c.useLogId = none) (hexp : ¬ c.expiredAt < now) :
    (createPaymentQr db cid mid now pc false).1 = .error .mediaRenderFailed ∧
    (createPaymentQr db cid mid now pc false).2 =
      repoCreatePaymentQr (expirePaymentQrByCouponId db cid now) cid pc (now + 60) ∧
    ({ paymentCode := pc, couponId := cid, expiredAt := now + 60 } : PaymentQr)
      ∈ (createPaymentQr db cid mid now pc false).2.paymentQrs := by
  have h : createPaymentQr db cid mid now pc false =
      (.error .mediaRenderFailed,
       repoCreatePaymentQr (expirePaymentQrByCouponId db cid now) cid pc (now + 60)) := by
    simp [createPaymentQr, hfind, hunused, hexp]
  refine ⟨by rw [h], by rw [h], ?_⟩
  rw [h]
  simp [repoCreatePaymentQr]

/-- Witness for the amended C3 theorem at `payMediaDb`. -/
theorem create_payment_qr_media_failure_witness :
    (createPaymentQr payMediaDb 1 7 10 "PC" false).1 = .error .mediaRenderFailed ∧
    ({ paymentCode := "PC", couponId := 1, expiredAt := 70 } : PaymentQr)
      ∈ (createPaymentQr payMediaDb 1 7 10 "PC" false).2.paymentQrs := by
  have h := create_payment_qr_media_failure payMediaDb 1 7 10 "PC"
      { couponId := 1, issueId := 1, productId := 1, partnerId := 1,
        registrationCode := "R", registerId := some 7,
        createdAt := 0, expiredAt := 1000 }
      rfl rfl (by decide)
  exact ⟨h.1, h.2.2⟩

/-! ## Claim C4 — single active payment token per coupon -/

/-- Expiring a coupon's still-valid tokens leaves no active token for that
coupon. -/
theorem filter_expired_map_self (qrs : List PaymentQr) (cid now : Nat) :
    (qrs.map (fun q => if q.couponId == cid && decide (now < q.expiredAt)
        then { q with expiredAt := now } else q)).filter
      (fun q => q.couponId == cid && decide (now < q.expiredAt)) = [] := by
  rw [List.filter_eq_nil_iff]
  intro x hx
  rcases List.mem_map.mp hx with ⟨a, ha, rfl⟩
  by_cases h1 : a.couponId = cid
  · by_cases h2 : now < a.expiredAt
    · simp [h1, h2]
    · simp [h1, h2]
  · simp [h1]

/-- Expiring one coupon's tokens does not change the active tokens of any
other coupon. -/
theorem filter_expired_map_other (qrs : List PaymentQr) (cid k now : Nat)
    (hk : k ≠ cid) :
    (qrs.map (fun q => if q.couponId == cid && decide (now < q.expiredAt)
        then { q with expiredAt := now } else q)).filter
      (fun q => q.couponId == k && decide (now < q.expiredAt))
      = qrs.filter (fun q => q.couponId == k && decide (now < q.expiredAt)) := by
  rw [List.filter_map]
  have h1 : qrs.filter ((fun (q : PaymentQr) =>
        q.couponId == k && decide (now < q.expiredAt)) ∘
      (fun q => if q.couponId == cid && decide (now < q.expiredAt)
        then { q with expiredAt := now } else q))
      = qrs.filter (fun q => q.couponId == k && decide (now < q.expiredAt)) := by
    apply List.filter_congr
    intro q _
    by_cases hq : q.couponId = cid
    · by_cases h2 : now < q.expiredAt
      · simp [Function.comp, hq, h2, Ne.symm hk]
      · simp [Function.comp, hq, h2, Ne.symm hk]
    · simp [Function.comp, hq]
  rw [h1]
  have h2 : ∀ x ∈ qrs.filter (fun q =>
      q.couponId == k && decide (now < q.expiredAt)),
      (if x.couponId == cid && decide (now < x.expiredAt)
        then { x with expiredAt := now } else x : PaymentQr) = x := by
    intro x hx
    have hxk : (x.couponId == k && decide (now < x.expiredAt)) = true :=
      (List.mem_filter.mp hx).2
    have hxid : x.couponId = k := by
      have := Bool.and_elim_left hxk
      simpa using this
    rw [if_neg]
    simp [hxid, hk]
  rw [List.map_congr_left h2, List.map_id']

/-- After "expire the coupon's valid tokens, then insert the fresh one",
the fresh token is the single active token of the coupon and every other
coupon's active tokens are untouched. -/
theorem activeQrsFor_after_reissue (db : DB) (cid now : Nat) (pc : String)
    (k : Nat) :
    activeQrsFor
        (repoCreatePaymentQr (expirePaymentQrByCouponId db cid now) cid pc (now + 60))
        k now
      = if k = cid then [{ paymentCode := pc, couponId := cid, expiredAt := now + 60 }]
        else activeQrsFor db k now := by
  by_cases hk : k = cid
  · subst hk
    simp only [activeQrsFor, repoCreatePaymentQr, expirePaymentQrByCouponId]
    rw [List.filter_append, filter_expired_map_self]
    simp
  · simp only [activeQrsFor, repoCreatePaymentQr, expirePaymentQrByCouponId]
    rw [List.filter_append, filter_expired_map_other db.paymentQrs cid k now hk]
    rw [if_neg hk]
    simp [Ne.symm hk]

/-- The committed state of `createQr` is either unchanged (a validation
failure) or the expire-then-insert state — also when the media call fails
afterwards. -/
theorem createPaymentQr_state (db : DB) (cid mid now : Nat) (pc : String)
    (mediaOk : Bool) :
    (createPaymentQr db cid mid now pc mediaOk).2 = db ∨
    (createPaymentQr db cid mid now pc mediaOk).2
      = repoCreatePaymentQr (expirePaymentQrByCouponId db cid now) cid pc (now + 60) := by
  unfold createPaymentQr
  cases findCouponByIdForPaymentQr db cid mid with
  | none => cases findCouponById db cid <;> exact Or.inl rfl
  | some c =>
    by_cases hu : c.useLogId ≠ none
    · simp [hu]
    · by_cases he : c.expiredAt < now
      · simp [hu, he]
      · by_cases hm : mediaOk <;> simp [hu, he, hm]

/-- A successful `createQr` always commits the expire-then-insert state. -/
theorem createPaymentQr_ok_state (db : DB) (cid mid now : Nat) (pc : String)
    (mediaOk : Bool) (out : PaymentQrOut)
    (hok : (createPaymentQr db cid mid now pc mediaOk).1 = .ok out) :
    (createPaymentQr db cid mid now pc mediaOk).2
      = repoCreatePaymentQr (expirePaymentQrByCouponId db cid now) cid pc (now + 60) := by
  unfold createPaymentQr at hok ⊢
  cases hf : findCouponByIdForPaymentQr db cid mid with
  | none =>
    simp only [hf] at hok
    cases hf2 : findCouponById db cid <;> simp [hf2] at hok
  | some c =>
    simp only [hf] at hok ⊢
    by_cases hu : c.useLogId = none
    · simp only [hu, ne_eq, not_true_eq_false, if_false, reduceIte] at hok ⊢
      by_cases he : c.expiredAt < now
      · simp [he] at hok
      · simp only [he, if_false, reduceIte] at hok ⊢
        by_cases hm : mediaOk
        · simp [hm]
        · simp [hm]
    · simp [hu] at hok

/-- Claim C4: `createQr` preserves "at most one unexpired `PaymentQr` per
coupon at this instant", and on success the coupon's prior still-valid
token is dead the moment the call returns: the freshly inserted token is
the *only* active one for the coupon. -/
theorem create_payment_qr_single_active (db : DB) (cid mid now : Nat)
    (pc : String) (mediaOk : Bool)
    (hinv : ∀ k, (activeQrsFor db k now).length ≤ 1) :
    (∀ k, (activeQrsFor (createPaymentQr db cid mid now pc mediaOk).2 k now).length ≤ 1) ∧
    (∀ out, (createPaymentQr db cid mid now pc mediaOk).1 = .ok out →
      activeQrsFor (createPaymentQr db cid mid now pc mediaOk).2 cid now
        = [{ paymentCode := pc, couponId := cid, expiredAt := now + 60 }]) := by
  constructor
  · intro k
    rcases createPaymentQr_state db cid mid now pc mediaOk with h | h
    · rw [h]; exact hinv k
    · rw [h, activeQrsFor_after_reissue]
      by_cases hk : k = cid
      · simp [hk]
      · simp [hk]; exact hinv k
  · intro out hok
    rw [createPaymentQr_ok_state db cid mid now pc mediaOk out hok,
      activeQrsFor_after_reissue]
    simp

/-- Witness for the C4 theorem on `payQrDb`: re-issuing before the prior
token's expiry leaves exactly the new token active. -/
theorem create_payment_qr_single_active_witness :
    (∀ k, (activeQrsFor payQrDb k 10).length ≤ 1) ∧
    activeQrsFor (createPaymentQr payQrDb 1 7 10 "NEW" true).2 1 10
      = [{ paymentCode := "NEW", couponId := 1, expiredAt := 70 }] := by
  have hinv : ∀ k, (activeQrsFor payQrDb k 10).length ≤ 1 := by
    intro k
    simp only [payQrDb, activeQrsFor]
    by_cases hk : (1 : Nat) = k <;> simp [hk]
  refine ⟨hinv, ?_⟩
  exact (create_payment_qr_single_active payQrDb 1 7 10 "NEW" true hinv).2
    { couponId := 1, paymentCode := "NEW", expiredAt := 70 } rfl

/-! ## Claim C1 — confirm is applied at most once -/

/-- Claim C1: a successful `confirm(code)` inserts exactly one `UseLog` and
points the coupon's `use_log_id` at it, and a second `confirm` with the
same still-resolvable code fails `AlreadyUsed` without touching the store
(an error result carries no state). -/
theorem confirm_payment_no_double_apply
    (db db' : DB) (pc : String) (now now' : Nat) (q : PaymentQr)
    (hq : db.paymentQrs.find? (fun x => x.paymentCode == pc) = some q)
    (hq' : ¬ q.expiredAt < now')
    (hok : confirmPaymentTransaction db pc now = .ok db') :
    db'.useLogs.length = db.useLogs.length + 1 ∧
    (∃ c, db.coupons.find? (fun x => x.couponId == q.couponId) = some c ∧
       c.useLogId = none ∧
       db'.useLogs = db.useLogs ++
         [{ useLogId := db.nextUseLogId, couponId := c.couponId, usedAt := now }] ∧
       ∀ x ∈ db'.coupons, x.couponId = c.couponId →
         x.useLogId = some db.nextUseLogId) ∧
    confirmPaymentTransaction db' pc now' = .error .alreadyUsed := by
  unfold confirmPaymentTransaction at hok
  cases hres : resolvePaymentCode db pc now with
  | error e => simp [hres] at hok
  | ok c =>
    simp only [hres] at hok
    have hfind : db.coupons.find? (fun x => x.couponId == q.couponId) = some c := by
      unfold resolvePaymentCode at hres
      simp only [hq] at hres
      by_cases he : q.expiredAt < now
      · simp [he] at hres
      · rw [if_neg he] at hres
        cases hcf : db.coupons.find? (fun x => x.couponId == q.couponId) with
        | none => exact absurd (hcf ▸ hres) (by simp)
        | some c2 =>
          simp only [hcf] at hres
          injection hres with h
          exact congrArg some h
    by_cases hu : c.useLogId = none
    swap
    · simp [hu] at hok
    · simp only [hu, ne_eq, not_false_eq_true, not_true_eq_false, if_false,
        reduceIte] at hok
      have hdb' : db'.useLogs = db.useLogs ++
            [{ useLogId := db.nextUseLogId, couponId := c.couponId, usedAt := now }] ∧
          db'.coupons = db.coupons.map (fun x =>
            if x.couponId = c.couponId
              then { x with useLogId := some db.nextUseLogId } else x) ∧
          db'.paymentQrs = db.paymentQrs := by
        split at hok
        · cases hok
          exact ⟨rfl, rfl, rfl⟩
        · cases hok
          exact ⟨rfl, rfl, rfl⟩
      obtain ⟨hul, hcp, hpq⟩ := hdb'
      have hmapc : (fun (x : Coupon) =>
            (if x.couponId = c.couponId
              then { x with useLogId := some db.nextUseLogId } else x : Coupon).couponId
              == q.couponId)
          = (fun x => x.couponId == q.couponId) := by
        funext x
        by_cases hx : x.couponId = c.couponId <;> simp [hx]
      refine ⟨by rw [hul]; simp, ⟨c, hfind, hu, hul, ?_⟩, ?_⟩
      · intro x hx hxc
        rw [hcp] at hx
        rcases List.mem_map.mp hx with ⟨x0, hx0, rfl⟩
        by_cases h0 : x0.couponId = c.couponId
        · simp [h0]
        · rw [if_neg h0] at hxc ⊢
          exact absurd hxc h0
      · have hcomp : ((fun (x : Coupon) => x.couponId == q.couponId) ∘
            fun (x : Coupon) =>
            if x.couponId = c.couponId
              then { x with useLogId := some db.nextUseLogId } else x)
            = (fun x => x.couponId == q.couponId) := by
          funext x
          by_cases hx : x.couponId = c.couponId <;> simp [Function.comp, hx]
        unfold confirmPaymentTransaction resolvePaymentCode
        rw [hpq, hcp]
        simp only [hq, hq', if_false, List.find?_map, hcomp, hfind, Option.map_some]
        simp

/-- Witness for the C1 theorem: on `payConfirmDb`, the first confirm of
"PC" succeeds and the retry fails `AlreadyUsed`. -/
theorem confirm_payment_no_double_apply_witness :
    confirmPaymentTransaction payConfirmDb "PC" 10 = .ok payConfirmDb1 ∧
    payConfirmDb1.useLogs.length = payConfirmDb.useLogs.length + 1 ∧
    confirmPaymentTransaction payConfirmDb1 "PC" 20 = .error .alreadyUsed := by
  have h := confirm_payment_no_double_apply payConfirmDb payConfirmDb1 "PC" 10 20
      { paymentCode := "PC", couponId := 1, expiredAt := 100 }
      rfl (by decide) rfl
  exact ⟨rfl, h.1, h.2.2⟩

/-! ## Claim C7 — all-or-nothing batch coupon delete -/

/-- Under duplicate-free keys, the first-match lookup of a member's key
returns that member. -/
theorem find?_key_of_mem {α β : Type} [DecidableEq β] (f : α → β)
    {l : List α} (hn : (l.map f).Nodup) {a : α} (ha : a ∈ l) :
    l.find? (fun x => f x == f a) = some a := by
  induction l with
  | nil => cases ha
  | cons b t ih =>
    rw [List.map_cons, List.nodup_cons] at hn
    rcases List.mem_cons.mp ha with rfl | hat
    · exact List.find?_cons_of_pos t (by simp)
    · have hba : ¬ (f b == f a) = true := by
        simp only [beq_iff_eq]
        intro h
        exact hn.1 (h ▸ List.mem_map_of_mem f hat)
      rw [List.find?_cons_of_neg t hba]
      exact ih hn.2 hat

/-- A list with a member failing the predicate strictly shrinks under
`filter`. -/
theorem length_filter_lt_of_mem_not {α : Type} (p : α → Bool) {l : List α}
    {a : α} (ha : a ∈ l) (hpa : p a = false) :
    (l.filter p).length < l.length := by
  induction l with
  | nil => cases ha
  | cons b t ih =>
    rcases List.mem_cons.mp ha with rfl | hat
    · rw [List.filter_cons, if_neg (by simp [hpa])]
      exact Nat.lt_succ_of_le (List.length_filter_le p t)
    · rw [List.filter_cons]
      by_cases hb : p b
      · rw [if_pos (by simpa using hb)]
        simpa using ih hat
      · rw [if_neg (by simpa using hb)]
        exact Nat.lt_succ_of_lt (ih hat)

/-- Claim C7: `delete_coupons` is all-or-nothing over the batch.  If no id
of the (non-empty) batch belongs to the consumer the call fails
`InvalidValue`; if only part of the batch belongs to them it fails
`NotYours` with no state committed; when the whole batch is theirs, every
batch coupon's register log ends up with `deleted_at` set and the returned
details are exactly the batch coupons with no `use_log_id`. -/
theorem delete_coupons_batch_behavior (db : DB) (couponIds : List Nat)
    (mid now : Nat) (hne : couponIds ≠ [])
    (hnodup : (db.coupons.map (fun c => c.couponId)).Nodup) :
    ((∀ cid ∈ couponIds, couponOwnedBy db mid cid = false) →
       serviceDeleteCoupons db couponIds mid now = .error .invalidValue) ∧
    ((∃ cid ∈ couponIds, couponOwnedBy db mid cid = true) →
     (∃ cid ∈ couponIds, couponOwnedBy db mid cid = false) →
       serviceDeleteCoupons db couponIds mid now = .error .notYours) ∧
    ((∀ cid ∈ couponIds, couponOwnedBy db mid cid = true) →
       serviceDeleteCoupons db couponIds mid now =
         .ok (db.coupons.filter (fun c =>
                couponIds.contains c.couponId && c.useLogId == none),
              { db with registerLogs := db.registerLogs.map fun rl =>
                  if ((db.coupons.filter (fun c =>
                        couponIds.contains c.couponId)).filterMap
                          (fun c => c.registerLogId)).contains rl.registerLogId
                      && rl.deletedAt == none
                  then { rl with deletedAt := some now } else rl }) ∧
       (∀ c ∈ db.coupons, couponIds.contains c.couponId = true →
        ∀ lid, c.registerLogId = some lid →
        ∀ rl ∈ db.registerLogs.map (fun rl =>
            if ((db.coupons.filter (fun c =>
                  couponIds.contains c.couponId)).filterMap
                    (fun c => c.registerLogId)).contains rl.registerLogId
                && rl.deletedAt == none
            then { rl with deletedAt := some now } else rl),
          rl.registerLogId = lid → rl.deletedAt ≠ none)) := by
  have hvalF : (∀ cid ∈ couponIds, couponOwnedBy db mid cid = false) →
      validateCouponOwnership db couponIds mid = ([], couponIds) := by
    intro hall
    unfold validateCouponOwnership
    rw [if_neg (by simpa [List.isEmpty_iff] using hne)]
    rw [Prod.mk.injEq]
    constructor
    · rw [List.filter_eq_nil_iff]
      intro cid hcid
      simp [hall cid hcid]
    · rw [List.filter_eq_self]
      intro cid hcid
      simp [hall cid hcid]
  have hvalT : (∀ cid ∈ couponIds, couponOwnedBy db mid cid = true) →
      validateCouponOwnership db couponIds mid = (couponIds, []) := by
    intro hall
    unfold validateCouponOwnership
    rw [if_neg (by simpa [List.isEmpty_iff] using hne)]
    rw [Prod.mk.injEq]
    constructor
    · rw [List.filter_eq_self]
      intro cid hcid
      simp [hall cid hcid]
    · rw [List.filter_eq_nil_iff]
      intro cid hcid
      simp [hall cid hcid]
  refine ⟨?_, ?_, ?_⟩
  · intro hall
    unfold serviceDeleteCoupons
    rw [hvalF hall]
    simp [hne]
  · rintro ⟨cid1, hcid1, hown1⟩ ⟨cid2, hcid2, hown2⟩
    have hv : validateCouponOwnership db couponIds mid
        = (couponIds.filter (couponOwnedBy db mid),
           couponIds.filter fun cid => !(couponOwnedBy db mid cid)) := by
      unfold validateCouponOwnership
      rw [if_neg (by simpa [List.isEmpty_iff] using hne)]
    unfold serviceDeleteCoupons
    rw [hv]
    have hne2 : (couponIds.filter fun cid => !(couponOwnedBy db mid cid)) ≠ [] := by
      apply List.ne_nil_of_mem (a := cid2)
      rw [List.mem_filter]
      exact ⟨hcid2, by simp [hown2]⟩
    have hlen : (couponIds.filter fun cid =>
        !(couponOwnedBy db mid cid)).length ≠ couponIds.length :=
      Nat.ne_of_lt (length_filter_lt_of_mem_not _ hcid1 (by simp [hown1]))
    simp [hne2, hlen]
  · intro hall
    have hsel : db.coupons.filter (fun c =>
          couponIds.contains c.couponId && c.registerId == some mid)
        = db.coupons.filter (fun c => couponIds.contains c.couponId) := by
      apply List.filter_congr
      intro c hc
      by_cases hcont : c.couponId ∈ couponIds
      · have hown := hall c.couponId hcont
        unfold couponOwnedBy at hown
        rw [find?_key_of_mem (fun x => x.couponId) hnodup hc] at hown
        simp only [Option.some.injEq] at hown
        simp at hown
        simp [hcont, hown]
      · simp [hcont]
    constructor
    · unfold serviceDeleteCoupons
      rw [hvalT hall]
      simp only [ne_eq, not_true_eq_false, if_false, reduceIte]
      unfold markCouponsAsDeleted
      rw [if_neg (by simpa [List.isEmpty_iff] using hne), hsel]
      obtain ⟨cid0, hcid0⟩ := List.exists_mem_of_ne_nil couponIds hne
      have hown0 := hall cid0 hcid0
      unfold couponOwnedBy at hown0
      cases hf0 : db.coupons.find? (fun x => x.couponId == cid0) with
      | none => simp [hf0] at hown0
      | some c0 =>
        have hc0mem : c0 ∈ db.coupons := List.mem_of_find?_eq_some hf0
        have hc0id : c0.couponId = cid0 := by
          simpa using List.find?_some hf0
        have hc0sel : c0 ∈ db.coupons.filter (fun c =>
            couponIds.contains c.couponId) := by
          rw [List.mem_filter]
          exact ⟨hc0mem, by rw [hc0id]; simpa using hcid0⟩
        rw [if_neg (by simpa [List.isEmpty_iff] using List.ne_nil_of_mem hc0sel)]
        rw [List.filter_filter]
        rw [List.filter_congr (fun (c : Coupon) _ => Bool.and_comm
          (c.useLogId == none) (couponIds.contains c.couponId))]
    · intro c hc hcont lid hlid rl hrl hrlid
      rcases List.mem_map.mp hrl with ⟨rl0, hrl0, rfl⟩
      have hlidmem : lid ∈ (db.coupons.filter (fun c =>
          couponIds.contains c.couponId)).filterMap (fun c => c.registerLogId) := by
        rw [List.mem_filterMap]
        exact ⟨c, List.mem_filter.mpr ⟨hc, hcont⟩, hlid⟩
      by_cases hguard : (((db.coupons.filter (fun c =>
            couponIds.contains c.couponId)).filterMap
              (fun c => c.registerLogId)).contains rl0.registerLogId
          && rl0.deletedAt == none) = true
      · rw [if_pos hguard] at hrlid ⊢
        simp
      · have hcont0 : (((db.coupons.filter (fun c =>
            couponIds.contains c.couponId)).filterMap
              (fun c => c.registerLogId)).contains lid) = true := by
          simpa using hlidmem
        rw [if_neg hguard] at hrlid ⊢
        intro hdel
        apply hguard
        rw [hrlid]
        simp [hdel]
        exact ⟨c, ⟨hc, by simpa using hcont⟩, hlid⟩

/-- Witness for the C7 theorem on `batchDb`: a mixed batch fails
`NotYours`, a fully foreign batch fails `InvalidValue`. -/
theorem delete_coupons_batch_behavior_witness :
    serviceDeleteCoupons batchDb [1, 3] 7 5 = .error .notYours ∧
    serviceDeleteCoupons batchDb [99] 7 5 = .error .invalidValue := by
  have h := delete_coupons_batch_behavior batchDb [1, 3] 7 5
    (by decide) (by decide)
  have h2 := delete_coupons_batch_behavior batchDb [99] 7 5
    (by decide) (by decide)
  exact ⟨h.2.1 ⟨1, by decide, by decide⟩ ⟨3, by decide, by decide⟩,
    h2.1 (by decide)⟩

/-! ## Claim C10 — issue deletion skips missing and already-deleted rows -/

/-- A row classified into none of the four write lists passes through the
write phase untouched. -/
theorem applyIssueDeletes_mem_of_untouched (db : DB)
    (A B C D : List Nat) (now : Nat) (il : IssueLog)
    (hmem : il ∈ db.issueLogs)
    (hA : ¬ A.contains il.issueId = true)
    (hB : ¬ B.contains il.issueId = true)
    (hC : ¬ C.contains il.issueId = true)
    (hD : ¬ D.contains il.issueId = true) :
    il ∈ (applyIssueDeletes db A B C D now).issueLogs := by
  have hA2 : il.issueId ∉ A := by simpa using hA
  have hB2 : il.issueId ∉ B := by simpa using hB
  have hC2 : il.issueId ∉ C := by simpa using hC
  have hD2 : il.issueId ∉ D := by simpa using hD
  unfold applyIssueDeletes
  have h1 : il ∈ db.issueLogs.filter (fun x => !(A.contains x.issueId)) :=
    List.mem_filter.mpr ⟨hmem, by simp [hA2]⟩
  have h2 : il ∈ (db.issueLogs.filter (fun x => !(A.contains x.issueId))).map
      (fun x => if B.contains x.issueId && x.vendorDeletedAt == none then
        { x with vendorDeletedAt := some now } else x) :=
    List.mem_map.mpr ⟨il, h1, by simp [hB2]⟩
  have h3 : il ∈ ((db.issueLogs.filter (fun x => !(A.contains x.issueId))).map
      (fun x => if B.contains x.issueId && x.vendorDeletedAt == none then
        { x with vendorDeletedAt := some now } else x)).map
      (fun x => if C.contains x.issueId && x.partnerDeletedAt == none then
        { x with partnerDeletedAt := some now } else x) :=
    List.mem_map.mpr ⟨il, h2, by simp [hC2]⟩
  exact List.mem_map.mpr ⟨il, h3, by simp [hD2]⟩

/-- A row that was skipped (not targeted, or already deleted for this
actor) never reaches any classification list of `delete_issues_by_user`. -/
theorem notin_classified (db : DB) (ids : List Nat) (st : String) (sid : Nat)
    (hn : (db.issueLogs.map (fun x => x.issueId)).Nodup)
    (il : IssueLog) (hmem : il ∈ db.issueLogs)
    (hskip : il.issueId ∉ ids ∨ alreadyDeletedFor st il = true)
    (q : IssueLog → Bool) :
    ¬ (((((db.issueLogs.filter (fun x => ids.contains x.issueId)).filter
        (fun x => !(alreadyDeletedFor st x))).filter
        (hasPermissionFor st sid)).filter q).map
          (fun x => x.issueId)).contains il.issueId = true := by
  intro hin
  have hin2 : il.issueId ∈ ((((db.issueLogs.filter
      (fun x => ids.contains x.issueId)).filter
      (fun x => !(alreadyDeletedFor st x))).filter
      (hasPermissionFor st sid)).filter q).map (fun x => x.issueId) := by
    simpa using hin
  rcases List.mem_map.mp hin2 with ⟨il2, hil2, hid⟩
  have hq := List.mem_filter.mp hil2
  have hperm := List.mem_filter.mp hq.1
  have hdel := List.mem_filter.mp hperm.1
  have hids := List.mem_filter.mp hdel.1
  rcases hskip with hno | hyes
  · exact hno (hid ▸ (by simpa using hids.2))
  · have heq : il2 = il := mem_eq_of_nodup_key hn hids.1 hmem hid
    have hdel2 := hdel.2
    rw [heq, hyes] at hdel2
    simp at hdel2

/-- Claim C10: the batch issue delete silently skips ids with no stored
issue and rows the actor already soft-deleted; it succeeds precisely when
every targeted stored row is either already actor-deleted or owned by the
actor, fails only with `NotYours` otherwise, and leaves skipped rows
untouched; a batch of entirely nonexistent ids succeeds with no state
change. -/
theorem delete_issues_skip_rules (db : DB) (ids : List Nat) (st : String)
    (sid now : Nat) (hn : (db.issueLogs.map (fun x => x.issueId)).Nodup) :
    ((serviceDeleteIssuesByUser db ids st sid now).1 = .ok () ↔
       ∀ il ∈ db.issueLogs, il.issueId ∈ ids →
         alreadyDeletedFor st il = true ∨ hasPermissionFor st sid il = true) ∧
    ((∀ il ∈ db.issueLogs, il.issueId ∉ ids) →
       serviceDeleteIssuesByUser db ids st sid now = (.ok (), db)) ∧
    (∀ il ∈ db.issueLogs, (il.issueId ∉ ids ∨ alreadyDeletedFor st il = true) →
       il ∈ (serviceDeleteIssuesByUser db ids st sid now).2.issueLogs) ∧
    ((serviceDeleteIssuesByUser db ids st sid now).1 = .ok () ∨
     (serviceDeleteIssuesByUser db ids st sid now).1 = .error .notYours) := by
  by_cases hids : ids = []
  · subst hids
    refine ⟨by simp [serviceDeleteIssuesByUser, repoDeleteIssuesByUser], ?_, ?_, ?_⟩
    · intro _
      simp [serviceDeleteIssuesByUser, repoDeleteIssuesByUser]
    · intro il hmem _
      simpa [serviceDeleteIssuesByUser, repoDeleteIssuesByUser] using hmem
    · left
      simp [serviceDeleteIssuesByUser, repoDeleteIssuesByUser]
  · have hne : ¬(ids.isEmpty = true) := by simpa [List.isEmpty_iff] using hids
    refine ⟨?_, ?_, ?_, ?_⟩
    · unfold serviceDeleteIssuesByUser repoDeleteIssuesByUser
      rw [if_neg hne]
      constructor
      · intro hok il hmem hil
        simp at hok
        by_cases hdel : alreadyDeletedFor st il = true
        · exact Or.inl hdel
        · right
          by_contra hperm
          exact hok il hmem (by simpa using hperm) (by simpa using hdel) hil
      · intro hall
        simp only [List.isEmpty_iff]
        simp
        intro x hx hperm hdel
        intro hxin
        rcases hall x hx hxin with h | h
        · rw [h] at hdel
          cases hdel
        · rw [h] at hperm
          cases hperm
    · intro hall
      have hfilterNil : db.issueLogs.filter
          (fun x => ids.contains x.issueId) = [] := by
        rw [List.filter_eq_nil_iff]
        intro x hx hcx
        exact hall x hx (by simpa using hcx)
      unfold serviceDeleteIssuesByUser repoDeleteIssuesByUser
      rw [if_neg hne, hfilterNil]
      simp [applyIssueDeletes_nil]
    · intro il hmem hskip
      unfold serviceDeleteIssuesByUser repoDeleteIssuesByUser
      rw [if_neg hne]
      exact applyIssueDeletes_mem_of_untouched db _ _ _ _ now il hmem
        (notin_classified db ids st sid hn il hmem hskip _)
        (notin_classified db ids st sid hn il hmem hskip _)
        (notin_classified db ids st sid hn il hmem hskip _)
        (notin_classified db ids st sid hn il hmem hskip _)
    · unfold serviceDeleteIssuesByUser
      by_cases hi : ((repoDeleteIssuesByUser db ids st sid now).1.2).isEmpty
      · left
        simp [hi]
      · right
        simp [hi]

/-- Witness for the C10 theorem on `delIssuesDb`: deleting a nonexistent
id together with an already-vendor-deleted issue succeeds with the store
unchanged. -/
theorem delete_issues_skip_rules_witness :
    serviceDeleteIssuesByUser delIssuesDb [1, 99] "member" 1 7 = (.ok (), delIssuesDb) := by
  have h := delete_issues_skip_rules delIssuesDb [1, 99] "member" 1 7 (by decide)
  have hok : (serviceDeleteIssuesByUser delIssuesDb [1, 99] "member" 1 7).1
      = .ok () := h.1.mpr (by decide)
  have hstate : serviceDeleteIssuesByUser delIssuesDb [1, 99] "member" 1 7
      = ((serviceDeleteIssuesByUser delIssuesDb [1, 99] "member" 1 7).1,
         (serviceDeleteIssuesByUser delIssuesDb [1, 99] "member" 1 7).2) := rfl
  rw [hstate, hok]
  rw [show (serviceDeleteIssuesByUser delIssuesDb [1, 99] "member" 1 7).2
      = delIssuesDb from rfl]

/-! ## Behavior of the minting loop -/

/-- The code picked by the collision-retry search is fresh. -/
theorem pickFresh_not_used {used : List String} :
    ∀ {supply code rest}, pickFresh used supply = some (code, rest) →
      code ∉ used := by
  intro supply
  induction supply with
  | nil => intro code rest h; cases h
  | cons c t ih =>
    intro code rest h
    unfold pickFresh at h
    by_cases hc : used.contains c
    · rw [if_pos hc] at h
      exact ih h
    · rw [if_neg hc] at h
      injection h with h1
      injection h1 with hcode _
      subst hcode
      simpa using hc

/-- Full characterization of a successful run of the inner minting loop:
the coupon table is extended by `n` fresh rows for the given issue and
product, with pairwise distinct codes not present before, and no other
table is touched. -/
theorem mintCoupons_spec (issueId productId partnerId now expiredAt : Nat) :
    ∀ (n : Nat) (db : DB) (supply : List String) (db' : DB)
      (supply' : List String),
    mintCoupons issueId productId partnerId now expiredAt n db supply
      = .ok (db', supply') →
    ∃ new : List Coupon,
      db'.coupons = db.coupons ++ new ∧
      new.length = n ∧
      (∀ c ∈ new, c.issueId = issueId ∧ c.productId = productId ∧
        c.partnerId = partnerId ∧ c.createdAt = now ∧
        c.expiredAt = expiredAt ∧ c.registerId = none ∧ c.useLogId = none) ∧
      (∀ c ∈ new, c.registrationCode ∉ usedCodes db) ∧
      (new.map (fun c => c.registrationCode)).Nodup ∧
      db'.registerLogs = db.registerLogs ∧ db'.useLogs = db.useLogs ∧
      db'.issueLogs = db.issueLogs ∧ db'.issueProducts = db.issueProducts ∧
      db'.products = db.products ∧ db'.paymentQrs = db.paymentQrs ∧
      db'.partnerUsers = db.partnerUsers := by
  intro n
  induction n with
  | zero =>
    intro db supply db' supply' h
    unfold mintCoupons at h
    injection h with h1
    injection h1 with h2 h3
    subst h2
    exact ⟨[], by simp, rfl, by simp, by simp, by simp,
      rfl, rfl, rfl, rfl, rfl, rfl, rfl⟩
  | succ n ih =>
    intro db supply db' supply' h
    unfold mintCoupons at h
    cases hp : pickFresh (usedCodes db) supply with
    | none => rw [hp] at h; cases h
    | some pr =>
      rcases pr with ⟨code, supply1⟩
      simp only [hp] at h
      have hfresh : code ∉ usedCodes db := pickFresh_not_used hp
      set c0 : Coupon :=
        { couponId := db.nextCouponId, issueId := issueId,
          productId := productId, partnerId := partnerId,
          registrationCode := code, createdAt := now,
          expiredAt := expiredAt } with hc0
      set db1 : DB := { db with coupons := db.coupons ++ [c0], nextCouponId := db.nextCouponId + 1 } with hdb1
      rcases ih db1 supply1 db' supply' h with
        ⟨new1, hcoup, hlen, hprops, hfresh1, hnodup1, hframes⟩
      refine ⟨c0 :: new1, ?_, ?_, ?_, ?_, ?_, ?_⟩
      · rw [hcoup]
        simp [hdb1]
      · simp [hlen]
      · intro c hc
        rcases List.mem_cons.mp hc with rfl | hc1
        · exact ⟨rfl, rfl, rfl, rfl, rfl, rfl, rfl⟩
        · exact hprops c hc1
      · intro c hc
        rcases List.mem_cons.mp hc with rfl | hc1
        · exact hfresh
        · have := hfresh1 c hc1
          intro hmem
          apply this
          simp only [hdb1, usedCodes, List.map_append]
          exact List.mem_append.mpr (Or.inl (by simpa [usedCodes] using hmem))
      · rw [List.map_cons, List.nodup_cons]
        refine ⟨?_, hnodup1⟩
        intro hmem
        rcases List.mem_map.mp hmem with ⟨c1, hc1, hcode1⟩
        have := hfresh1 c1 hc1
        apply this
        simp [hdb1, usedCodes, hcode1]
      · exact hframes

/-! ## The converted-line relation and code-freshness composition -/

/-- `convertedLine` is reflexive: an untouched row is related to itself. -/
theorem convertedLine_refl (x : IssueProduct) : convertedLine x x :=
  Or.inl rfl

/-- Every list of `issue_products` rows is `Forall₂ convertedLine`-related
to itself. -/
theorem forall₂_convertedLine_refl :
    ∀ l : List IssueProduct, List.Forall₂ convertedLine l l := by
  intro l
  induction l with
  | nil => exact List.Forall₂.nil
  | cons x xs ih => exact List.Forall₂.cons (convertedLine_refl x) ih

/-- `convertedLine` is transitive: a row cannot be converted twice, since
conversion leaves the APPROVE stage, which no longer matches REQUEST. -/
theorem convertedLine_trans {a b c : IssueProduct}
    (hab : convertedLine a b) (hbc : convertedLine b c) :
    convertedLine a c := by
  rcases hbc with rfl | ⟨hb1, hb2, hb3, hb4⟩
  · exact hab
  · rcases hab with rfl | ⟨ha1, ha2, ha3, ha4⟩
    · exact Or.inr ⟨hb1, hb2, hb3, hb4⟩
    · rw [ha2] at hb1
      exact absurd hb1 (by decide)

/-- `Forall₂ convertedLine` composes. -/
theorem forall₂_convertedLine_trans :
    ∀ {l1 l2 l3 : List IssueProduct},
      List.Forall₂ convertedLine l1 l2 → List.Forall₂ convertedLine l2 l3 →
      List.Forall₂ convertedLine l1 l3 := by
  intro l1 l2 l3 h12
  induction h12 generalizing l3 with
  | nil =>
    intro h23
    cases h23
    exact List.Forall₂.nil
  | cons ha _ ih =>
    intro h23
    cases h23 with
    | cons hb htb => exact List.Forall₂.cons (convertedLine_trans ha hb) (ih htb)

/-- Replacing the first row matched by a predicate with a `convertedLine`-
related row relates the whole table pointwise. -/
theorem forall₂_convertedLine_updateFirst (p : IssueProduct → Bool)
    (f : IssueProduct → IssueProduct)
    (hf : ∀ x, p x = true → convertedLine x (f x)) :
    ∀ l : List IssueProduct, List.Forall₂ convertedLine l (updateFirst p f l) := by
  intro l
  induction l with
  | nil => exact List.Forall₂.nil
  | cons x xs ih =>
    unfold updateFirst
    by_cases hp : p x = true
    · rw [if_pos hp]
      exact List.Forall₂.cons (hf x hp) (forall₂_convertedLine_refl xs)
    · rw [if_neg hp]
      exact List.Forall₂.cons (convertedLine_refl x) ih

/-- Two successive batches of codes that are each fresh with respect to the
codes before them are jointly fresh and duplicate-free. -/
theorem fresh_append {l0 l1 l2 : List String}
    (h1 : ∀ x ∈ l1, x ∉ l0) (h1n : l1.Nodup)
    (h2 : ∀ x ∈ l2, x ∉ l0 ++ l1) (h2n : l2.Nodup) :
    (∀ x ∈ l1 ++ l2, x ∉ l0) ∧ (l1 ++ l2).Nodup := by
  constructor
  · intro x hx
    rcases List.mem_append.mp hx with h | h
    · exact h1 x h
    · intro h0
      exact h2 x h (List.mem_append.mpr (Or.inl h0))
  · rw [List.nodup_append]
    exact ⟨h1n, h2n, fun x hx1 hx2 => h2 x hx2 (List.mem_append.mpr (Or.inr hx1))⟩

/-- Appending a batch of fresh, duplicate-free codes to a duplicate-free
code list keeps it duplicate-free. -/
theorem usedCodes_append_nodup {l0 : List String} {new : List Coupon}
    (hn : l0.Nodup) (hf : ∀ c ∈ new, c.registrationCode ∉ l0)
    (hnd : (new.map fun c => c.registrationCode).Nodup) :
    (l0 ++ new.map fun c => c.registrationCode).Nodup := by
  rw [List.nodup_append]
  refine ⟨hn, hnd, ?_⟩
  intro x hx0 hxn
  rcases List.mem_map.mp hxn with ⟨c, hc, rfl⟩
  exact hf c hc hx0

/-- `sumCounts` with a general accumulator. -/
theorem sumCounts_foldl :
    ∀ (ps : List AllocInput) (a : Int),
      ps.foldl (fun a p => a + p.count) a = a + sumCounts ps := by
  intro ps
  induction ps with
  | nil => intro a; simp [sumCounts]
  | cons p t ih =>
    intro a
    simp only [List.foldl_cons, sumCounts]
    rw [ih (a + p.count), ih (0 + p.count)]
    ring

/-- `sumCounts` over a cons cell. -/
theorem sumCounts_cons (p : AllocInput) (ps : List AllocInput) :
    sumCounts (p :: ps) = p.count + sumCounts ps := by
  rw [sumCounts, List.foldl_cons, sumCounts_foldl]
  ring

/-- On a line-wise valid allocation list (all counts positive) the `Int` sum
recorded in `approved_issue_count` equals the number of coupons minted. -/
theorem sumCounts_eq_ofNat :
    ∀ {ps : List AllocInput}, ps.all validAllocInput = true →
      sumCounts ps = (sumCountsNat ps : Int) := by
  intro ps
  induction ps with
  | nil => intro _; rfl
  | cons p t ih =>
    intro h
    simp only [List.all_cons, Bool.and_eq_true] at h
    have hc : 0 < p.count := by
      have h1 := h.1
      unfold validAllocInput at h1
      simp only [Bool.and_eq_true, decide_eq_true_eq] at h1
      exact h1.1
    have ht := ih h.2
    rw [sumCounts_cons, ht]
    have hlen : sumCountsNat (p :: t) = p.count.toNat + sumCountsNat t := by
      simp [sumCountsNat]
    rw [hlen]
    omega

/-- One approval-loop iteration: `count.toNat` fresh coupons are appended
(with `expired_at = now + valid_days`), the matched REQUEST line is
converted in place, and no other table changes. -/
theorem processAlloc_spec (issueId partnerId now validDays : Nat) (db : DB)
    (supply : List String) (p : AllocInput) (db' : DB) (supply' : List String)
    (h : processAlloc issueId partnerId now validDays db supply p
      = .ok (db', supply')) :
    ∃ new : List Coupon,
      db'.coupons = db.coupons ++ new ∧
      new.length = p.count.toNat ∧
      (∀ c ∈ new, c.issueId = issueId ∧ c.partnerId = partnerId ∧
        c.createdAt = now ∧ c.expiredAt = now + validDays ∧
        c.registerId = none ∧ c.useLogId = none) ∧
      (∀ c ∈ new, c.registrationCode ∉ usedCodes db) ∧
      (new.map fun c => c.registrationCode).Nodup ∧
      List.Forall₂ convertedLine db.issueProducts db'.issueProducts ∧
      db'.registerLogs = db.registerLogs ∧ db'.useLogs = db.useLogs ∧
      db'.issueLogs = db.issueLogs ∧ db'.paymentQrs = db.paymentQrs ∧
      db'.partnerUsers = db.partnerUsers := by
  unfold processAlloc at h
  by_cases hcnt : p.count ≤ 0
  · rw [if_pos hcnt] at h
    cases h
  · rw [if_neg hcnt] at h
    by_cases hnew : p.isNew = true
    · rw [if_pos hnew] at h
      cases hpn : p.productName with
      | none =>
        simp only [hpn] at h
        cases h
      | some name =>
        simp only [hpn] at h
        by_cases hname : name = ""
        · rw [if_pos hname] at h
          cases h
        · rw [if_neg hname] at h
          rcases mintCoupons_spec _ _ _ _ _ _ _ _ _ _ h with
            ⟨new, hcoup, hlen, hprops, hfresh, hnodup,
              hrl, hul, hil, hip, hpr, hpq, hpu⟩
          refine ⟨new, hcoup, hlen,
            fun c hc => ⟨(hprops c hc).1, (hprops c hc).2.2⟩,
            hfresh, hnodup, ?_, hrl, hul, hil, hpq, hpu⟩
          rw [hip]
          refine forall₂_convertedLine_updateFirst _ _ ?_ db.issueProducts
          intro x hx
          unfold matchReqNew at hx
          simp only [Bool.and_eq_true, beq_iff_eq] at hx
          exact Or.inr ⟨hx.1.1.2, rfl, rfl, rfl⟩
    · rw [if_neg hnew] at h
      cases hpid : p.productId with
      | none =>
        simp only [hpid] at h
        cases h
      | some pid =>
        simp only [hpid] at h
        by_cases hany : (db.products.any fun pr =>
            pr.productId == pid && pr.partnerId == partnerId) = true
        · rw [if_pos hany] at h
          rcases mintCoupons_spec _ _ _ _ _ _ _ _ _ _ h with
            ⟨new, hcoup, hlen, hprops, hfresh, hnodup,
              hrl, hul, hil, hip, hpr, hpq, hpu⟩
          refine ⟨new, hcoup, hlen,
            fun c hc => ⟨(hprops c hc).1, (hprops c hc).2.2⟩,
            hfresh, hnodup, ?_, hrl, hul, hil, hpq, hpu⟩
          rw [hip]
          refine forall₂_convertedLine_updateFirst _ _ ?_ db.issueProducts
          intro x hx
          unfold matchReqExisting at hx
          simp only [Bool.and_eq_true, beq_iff_eq] at hx
          exact Or.inr ⟨hx.1.2, rfl, rfl, rfl⟩
        · rw [if_neg hany] at h
          cases h

/-- The whole approval loop: one fresh coupon batch per allocation line, the
REQUEST lines converted pointwise, all other tables untouched. -/
theorem processAllocs_spec (issueId partnerId now validDays : Nat) :
    ∀ (ps : List AllocInput) (db : DB) (supply : List String) (db' : DB)
      (supply' : List String),
    processAllocs issueId partnerId now validDays ps db supply
      = .ok (db', supply') →
    ∃ new : List Coupon,
      db'.coupons = db.coupons ++ new ∧
      new.length = sumCountsNat ps ∧
      (∀ c ∈ new, c.issueId = issueId ∧ c.partnerId = partnerId ∧
        c.createdAt = now ∧ c.expiredAt = now + validDays ∧
        c.registerId = none ∧ c.useLogId = none) ∧
      (∀ c ∈ new, c.registrationCode ∉ usedCodes db) ∧
      (new.map fun c => c.registrationCode).Nodup ∧
      List.Forall₂ convertedLine db.issueProducts db'.issueProducts ∧
      db'.registerLogs = db.registerLogs ∧ db'.useLogs = db.useLogs ∧
      db'.issueLogs = db.issueLogs ∧ db'.paymentQrs = db.paymentQrs ∧
      db'.partnerUsers = db.partnerUsers := by
  intro ps
  induction ps with
  | nil =>
    intro db supply db' supply' h
    unfold processAllocs at h
    injection h with h1
    injection h1 with h2 h3
    subst h2
    exact ⟨[], by simp, rfl, by simp, by simp, by simp,
      forall₂_convertedLine_refl _, rfl, rfl, rfl, rfl, rfl⟩
  | cons p t ih =>
    intro db supply db' supply' h
    unfold processAllocs at h
    cases hpa : processAlloc issueId partnerId now validDays db supply p with
    | error e =>
      simp only [hpa] at h
      cases h
    | ok pr =>
      rcases pr with ⟨db1, supply1⟩
      simp only [hpa] at h
      rcases processAlloc_spec issueId partnerId now validDays db supply p
          db1 supply1 hpa with
        ⟨new1, hc1, hl1, hp1, hf1, hn1, hfa1, hrl1, hul1, hil1, hpq1, hpu1⟩
      rcases ih db1 supply1 db' supply' h with
        ⟨new2, hc2, hl2, hp2, hf2, hn2, hfa2, hrl2, hul2, hil2, hpq2, hpu2⟩
      have hused : usedCodes db1
          = usedCodes db ++ new1.map fun c => c.registrationCode := by
        simp [usedCodes, hc1]
      have hfr1 : ∀ x ∈ new1.map (fun c => c.registrationCode),
          x ∉ usedCodes db := by
        intro x hx
        rcases List.mem_map.mp hx with ⟨c, hcmem, rfl⟩
        exact hf1 c hcmem
      have hfr2 : ∀ x ∈ new2.map (fun c => c.registrationCode),
          x ∉ usedCodes db ++ new1.map fun c => c.registrationCode := by
        intro x hx
        rcases List.mem_map.mp hx with ⟨c, hcmem, rfl⟩
        rw [← hused]
        exact hf2 c hcmem
      rcases fresh_append hfr1 hn1 hfr2 hn2 with ⟨hfAll, hnAll⟩
      refine ⟨new1 ++ new2, ?_, ?_, ?_, ?_, ?_, ?_, ?_, ?_, ?_, ?_, ?_⟩
      · rw [hc2, hc1, List.append_assoc]
      · rw [List.length_append, hl1, hl2]
        simp [sumCountsNat]
      · intro c hc
        rcases List.mem_append.mp hc with h1 | h1
        · exact hp1 c h1
        · exact hp2 c h1
      · intro c hc
        apply hfAll
        rw [← List.map_append]
        exact List.mem_map.mpr ⟨c, hc, rfl⟩
      · rw [List.map_append]
        exact hnAll
      · exact forall₂_convertedLine_trans hfa1 hfa2
      · rw [hrl2, hrl1]
      · rw [hul2, hul1]
      · rw [hil2, hil1]
      · rw [hpq2, hpq1]
      · rw [hpu2, hpu1]

/-- `serviceDecideIssue` specialized to an approval. -/
theorem serviceDecideIssue_true_eq (db : DB) (issueId partnerId : Nat)
    (products : List AllocInput) (reason : Option String) (now : Nat)
    (supply : List String) :
    serviceDecideIssue db issueId partnerId true products reason now supply =
      (if products.isEmpty then .error .invalidValue
       else if products.all validAllocInput then
         repoDecideIssue db issueId partnerId true products none now supply
       else .error .invalidValue) := rfl

/-- `repoDecideIssue` specialized to an approval. -/
theorem repoDecideIssue_true_eq (db : DB) (issueId partnerId : Nat)
    (products : List AllocInput) (now : Nat) (supply : List String) :
    repoDecideIssue db issueId partnerId true products none now supply =
      (match db.issueLogs.find? (fun il => il.issueId == issueId &&
          il.partnerId == some partnerId && il.partnerDeletedAt == none) with
       | none => .error .invalidValue
       | some il =>
         if !(pendingStatuses.contains il.status) then .error .alreadyDecided
         else if products.isEmpty then .error .invalidValue
         else
           match processAllocs issueId partnerId now il.validDays products db
               supply with
           | .error e => .error e
           | .ok (db', _) =>
             .ok { db' with issueLogs := db'.issueLogs.map fun x =>
               if x.issueId = issueId then
                 { x with status := "ISSUE_STATUS/ISSUED",
                          decidedAt := some now,
                          approvedIssueCount := sumCounts products,
                          productKindCount := products.length }
               else x }) := rfl

/-- Destructor for a successful approval: it found a still-pending issue of
the partner, the allocation list passed validation, the approval loop ran,
and the result is the loop state with the issue row stamped
`ISSUED`/`decided_at`/`approved_issue_count`. -/
theorem serviceDecideIssue_approve_ok
    (db : DB) (issueId partnerId now : Nat) (products : List AllocInput)
    (supply : List String) (db' : DB)
    (h : serviceDecideIssue db issueId partnerId true products none now supply
      = .ok db') :
    products.isEmpty = false ∧ products.all validAllocInput = true ∧
    ∃ (il : IssueLog) (db'' : DB) (supply'' : List String),
      db.issueLogs.find? (fun x => x.issueId == issueId &&
        x.partnerId == some partnerId && x.partnerDeletedAt == none)
        = some il ∧
      pendingStatuses.contains il.status = true ∧
      processAllocs issueId partnerId now il.validDays products db supply
        = .ok (db'', supply'') ∧
      db' = { db'' with issueLogs := db''.issueLogs.map fun x =>
        if x.issueId = issueId then
          { x with status := "ISSUE_STATUS/ISSUED", decidedAt := some now,
                   approvedIssueCount := sumCounts products,
                   productKindCount := products.length }
        else x } := by
  rw [serviceDecideIssue_true_eq] at h
  by_cases hie : products.isEmpty = true
  · rw [if_pos hie] at h
    cases h
  · rw [if_neg hie] at h
    have hie2 : products.isEmpty = false := Bool.eq_false_iff.mpr hie
    by_cases hval : products.all validAllocInput = true
    · rw [if_pos hval] at h
      rw [repoDecideIssue_true_eq] at h
      cases hfind : db.issueLogs.find? (fun x => x.issueId == issueId &&
          x.partnerId == some partnerId && x.partnerDeletedAt == none) with
      | none =>
        simp only [hfind] at h
        cases h
      | some il =>
        simp only [hfind] at h
        by_cases hpend : pendingStatuses.contains il.status = true
        · rw [if_neg (by simpa using hpend)] at h
          rw [if_neg (by simp [hie2])] at h
          cases hpa : processAllocs issueId partnerId now il.validDays
              products db supply with
          | error e =>
            simp only [hpa] at h
            cases h
          | ok pr =>
            rcases pr with ⟨db'', supply''⟩
            simp only [hpa] at h
            injection h with h1
            exact ⟨hie2, hval, il, db'', supply'', rfl, hpend, hpa, h1.symm⟩
        · rw [if_pos (by simpa using hpend)] at h
          cases h
    · rw [if_neg hval] at h
      cases h

/-! ## C6: deciding an issue request (approval) -/

/-- Claim C6: for the issue the decision call resolves (owned by the
partner, not partner-deleted), approval behaves as specified: if the status
is no longer pending (the source counts `PENDING` and its spec-equivalent
`PAYMENT_READY` sub-status as pending), the call fails `AlreadyDecided`
even on a well-formed allocation list; and every successful approval stamps
the issue `ISSUED` with `decided_at = now` and
`approved_issue_count = Σ counts`, and mints exactly `Σ counts` coupons,
each with a distinct, previously unused `registration_code` and
`expired_at = decided_at + valid_days`. -/
theorem decide_issue_approve_behavior
    (db : DB) (issueId partnerId now : Nat) (products : List AllocInput)
    (supply : List String) (il : IssueLog)
    (hfind : db.issueLogs.find? (fun x => x.issueId == issueId &&
        x.partnerId == some partnerId && x.partnerDeletedAt == none)
      = some il) :
    (pendingStatuses.contains il.status = false → products ≠ [] →
       products.all validAllocInput = true →
       serviceDecideIssue db issueId partnerId true products none now supply
         = .error .alreadyDecided) ∧
    (∀ db' : DB,
       serviceDecideIssue db issueId partnerId true products none now supply
         = .ok db' →
       pendingStatuses.contains il.status = true ∧
       sumCounts products = (sumCountsNat products : Int) ∧
       ∃ new : List Coupon,
         db'.coupons = db.coupons ++ new ∧
         new.length = sumCountsNat products ∧
         (new.map fun c => c.registrationCode).Nodup ∧
         (∀ c ∈ new, c.registrationCode ∉ usedCodes db) ∧
         (∀ c ∈ new, c.issueId = issueId ∧ c.createdAt = now ∧
            c.expiredAt = now + il.validDays ∧ c.useLogId = none) ∧
         db'.issueLogs = db.issueLogs.map fun x =>
           if x.issueId = issueId then
             { x with status := "ISSUE_STATUS/ISSUED", decidedAt := some now,
                      approvedIssueCount := sumCounts products,
                      productKindCount := products.length }
           else x) := by
  constructor
  · intro hnp hne hval
    rw [serviceDecideIssue_true_eq]
    have hie : products.isEmpty = false := by
      cases products with
      | nil => exact absurd rfl hne
      | cons a t => rfl
    rw [if_neg (by simp [hie]), if_pos hval, repoDecideIssue_true_eq]
    simp only [hfind]
    rw [if_pos (by rw [hnp]; rfl)]
  · intro db' hok
    rcases serviceDecideIssue_approve_ok db issueId partnerId now products
        supply db' hok with
      ⟨hie, hval, il', db'', supply'', hfind', hpend, hpa, hstamp⟩
    rw [hfind] at hfind'
    obtain rfl : il = il' := Option.some.inj hfind'
    rcases processAllocs_spec issueId partnerId now il.validDays products db
        supply db'' supply'' hpa with
      ⟨new, hcoup, hlen, hprops, hfresh, hnodup, hfa, hrl, hul, hil, hpq, hpu⟩
    subst hstamp
    refine ⟨hpend, sumCounts_eq_ofNat hval, new, hcoup, hlen, hnodup,
      hfresh, ?_, ?_⟩
    · intro c hc
      rcases hprops c hc with ⟨h1, h2, h3, h4, h5, h6⟩
      exact ⟨h1, h3, h4, h6⟩
    · rw [hil]

/-- Witness for C6 at the spec's own scenario: partner 2 approves the
pending `[A×3, B×2]` request at time 200 with valid-days 30; exactly five
coupons are minted with five distinct fresh codes and
`expired_at = 230`, and the issue row is stamped `ISSUED`. -/
theorem decide_issue_approve_behavior_witness :
    pendingStatuses.contains "ISSUE_STATUS/PENDING" = true ∧
    sumCounts reqAllocs = (sumCountsNat reqAllocs : Int) ∧
    ∃ new : List Coupon,
      reqDecidedDb.coupons = reqDb.coupons ++ new ∧
      new.length = sumCountsNat reqAllocs ∧
      (new.map fun c => c.registrationCode).Nodup ∧
      (∀ c ∈ new, c.registrationCode ∉ usedCodes reqDb) ∧
      (∀ c ∈ new, c.issueId = 1 ∧ c.createdAt = 200 ∧
         c.expiredAt = 200 + 30 ∧ c.useLogId = none) ∧
      reqDecidedDb.issueLogs = reqDb.issueLogs.map fun x =>
        if x.issueId = 1 then
          { x with status := "ISSUE_STATUS/ISSUED", decidedAt := some 200,
                   approvedIssueCount := sumCounts reqAllocs,
                   productKindCount := reqAllocs.length }
        else x :=
  (decide_issue_approve_behavior reqDb 1 2 200 reqAllocs codeSupply
      { issueId := 1, title := "T", vendorId := some 1, partnerId := some 2,
        status := "ISSUE_STATUS/PENDING", requestedAt := 100, validDays := 30,
        requestedIssueCount := 5, approvedIssueCount := 0,
        productKindCount := 2 }
      rfl).2 reqDecidedDb rfl

/-! ## C9: fate of the REQUEST-stage lines on approval -/

/-- Claim C9 is false as stated: approving the `[A×3, B×2]` request does
not leave the two REQUEST-stage `issue_products` rows alongside new
APPROVE-stage rows — `decide_issue` runs `UPDATE … SET stage = APPROVE …
LIMIT 1` per allocation line, converting each REQUEST row in place.  After
the decision the table still has two rows, none of them REQUEST-stage. -/
theorem approve_overwrites_request_lines_cex :
    serviceDecideIssue reqDb 1 2 true reqAllocs none 200 codeSupply
      = .ok reqDecidedDb ∧
    (reqDb.issueProducts.filter fun ip => ip.stage == "REQUEST").length = 2 ∧
    (reqDecidedDb.issueProducts.filter fun ip => ip.stage == "REQUEST").length
      = 0 ∧
    (reqDecidedDb.issueProducts.filter fun ip => ip.stage == "APPROVE").length
      = 2 ∧
    reqDecidedDb.issueProducts.length = reqDb.issueProducts.length :=
  ⟨rfl, rfl, rfl, rfl, rfl⟩

/-- Claim C9 (amended): the REQUEST-stage lines written at request time do
not persist unchanged — a successful approval rewrites them in place.  The
`issue_products` table keeps exactly its former row count, and each row is
pointwise either untouched or converted from REQUEST to APPROVE stage with
its primary key and issue id preserved. -/
theorem approve_converts_request_lines_amended
    (db : DB) (issueId partnerId now : Nat) (products : List AllocInput)
    (supply : List String) (db' : DB)
    (h : serviceDecideIssue db issueId partnerId true products none now supply
      = .ok db') :
    db'.issueProducts.length = db.issueProducts.length ∧
    List.Forall₂ convertedLine db.issueProducts db'.issueProducts := by
  rcases serviceDecideIssue_approve_ok db issueId partnerId now products
      supply db' h with
    ⟨hie, hval, il, db'', supply'', hfind, hpend, hpa, hstamp⟩
  rcases processAllocs_spec issueId partnerId now il.validDays products db
      supply db'' supply'' hpa with
    ⟨new, hcoup, hlen, hprops, hfresh, hnodup, hfa, hframes⟩
  subst hstamp
  exact ⟨(List.Forall₂.length_eq hfa).symm, hfa⟩

/-- Witness for C9 (amended) on the `[A×3, B×2]` scenario. -/
theorem approve_converts_request_lines_amended_witness :
    reqDecidedDb.issueProducts.length = reqDb.issueProducts.length ∧
    List.Forall₂ convertedLine reqDb.issueProducts reqDecidedDb.issueProducts :=
  approve_converts_request_lines_amended reqDb 1 2 200 reqAllocs codeSupply
    reqDecidedDb rfl

/-! ## C8: global uniqueness of registration codes -/

/-- `serviceDecideIssue` specialized to a rejection. -/
theorem serviceDecideIssue_false_eq (db : DB) (issueId partnerId : Nat)
    (products : List AllocInput) (reason : Option String) (now : Nat)
    (supply : List String) :
    serviceDecideIssue db issueId partnerId false products reason now supply =
      (match reason with
       | none => .error .invalidValue
       | some r =>
         if r = "" then .error .invalidValue
         else repoDecideIssue db issueId partnerId false [] (some r) now
           supply) := rfl

/-- `repoDecideIssue` specialized to a rejection with a present reason. -/
theorem repoDecideIssue_false_some_eq (db : DB) (issueId partnerId : Nat)
    (products : List AllocInput) (r : String) (now : Nat)
    (supply : List String) :
    repoDecideIssue db issueId partnerId false products (some r) now supply =
      (match db.issueLogs.find? (fun il => il.issueId == issueId &&
          il.partnerId == some partnerId && il.partnerDeletedAt == none) with
       | none => .error .invalidValue
       | some il =>
         if !(pendingStatuses.contains il.status) then .error .alreadyDecided
         else if r = "" then .error .invalidValue
         else
           .ok { db with issueLogs := db.issueLogs.map fun x =>
             if x.issueId = issueId then
               { x with status := "ISSUE_STATUS/REJECTED",
                        decidedAt := some now, reason := some r }
             else x }) := rfl

/-- Any successful decision call only ever appends fresh, pairwise distinct
registration codes to the coupon table (a rejection appends none). -/
theorem serviceDecideIssue_coupons (db : DB) (issueId partnerId : Nat)
    (isApproved : Bool) (products : List AllocInput) (reason : Option String)
    (now : Nat) (supply : List String) (db' : DB)
    (h : serviceDecideIssue db issueId partnerId isApproved products reason
      now supply = .ok db') :
    ∃ new : List Coupon,
      db'.coupons = db.coupons ++ new ∧
      (∀ c ∈ new, c.registrationCode ∉ usedCodes db) ∧
      (new.map fun c => c.registrationCode).Nodup := by
  cases isApproved with
  | true =>
    have h' : serviceDecideIssue db issueId partnerId true products none now
        supply = .ok db' := h
    rcases serviceDecideIssue_approve_ok db issueId partnerId now products
        supply db' h' with
      ⟨hie, hval, il, db'', supply'', hfind, hpend, hpa, hstamp⟩
    rcases processAllocs_spec issueId partnerId now il.validDays products db
        supply db'' supply'' hpa with
      ⟨new, hcoup, hlen, hprops, hfresh, hnodup, hframes⟩
    subst hstamp
    exact ⟨new, hcoup, hfresh, hnodup⟩
  | false =>
    rw [serviceDecideIssue_false_eq] at h
    cases hr : reason with
    | none =>
      simp only [hr] at h
      cases h
    | some r =>
      simp only [hr] at h
      by_cases hre : r = ""
      · rw [if_pos hre] at h
        cases h
      · rw [if_neg hre, repoDecideIssue_false_some_eq] at h
        cases hfind : db.issueLogs.find? (fun il => il.issueId == issueId &&
            il.partnerId == some partnerId && il.partnerDeletedAt == none) with
        | none =>
          simp only [hfind] at h
          cases h
        | some il =>
          simp only [hfind] at h
          by_cases hpend : pendingStatuses.contains il.status = true
          · rw [if_neg (by simpa using hpend), if_neg hre] at h
            injection h with h1
            refine ⟨[], ?_, by simp, by simp⟩
            rw [← h1]
            simp
          · rw [if_pos (by simpa using hpend)] at h
            cases h

/-- The product-resolution loop of `create_self_issue` never touches the
coupon table. -/
theorem resolveSelfProducts_coupons (partnerId now : Nat) :
    ∀ (ps : List AllocInput) (db db' : DB) (infos : List (Nat × Int)),
      resolveSelfProducts partnerId now ps db = .ok (db', infos) →
      db'.coupons = db.coupons := by
  intro ps
  induction ps with
  | nil =>
    intro db db' infos h
    unfold resolveSelfProducts at h
    injection h with h1
    injection h1 with h2 h3
    subst h2
    rfl
  | cons p t ih =>
    intro db db' infos h
    unfold resolveSelfProducts at h
    by_cases hcnt : p.count ≤ 0
    · rw [if_pos hcnt] at h
      cases h
    · rw [if_neg hcnt] at h
      by_cases hnew : p.isNew = true
      · rw [if_pos hnew] at h
        cases hpn : p.productName with
        | none =>
          simp only [hpn] at h
          cases h
        | some name =>
          simp only [hpn] at h
          by_cases hname : name = ""
          · rw [if_pos hname] at h
            cases h
          · rw [if_neg hname] at h
            split at h
            · cases h
            · rename_i db2 infos2 heq
              injection h with h1
              injection h1 with h2 h3
              subst h2
              have h4 := ih _ db2 infos2 heq
              exact h4
      · rw [if_neg hnew] at h
        cases hpid : p.productId with
        | none =>
          simp only [hpid] at h
          cases h
        | some pid =>
          simp only [hpid] at h
          by_cases hany : (db.products.any fun pr =>
              pr.productId == pid && pr.partnerId == partnerId) = true
          · rw [if_pos hany] at h
            split at h
            · cases h
            · rename_i db2 infos2 heq
              injection h with h1
              injection h1 with h2 h3
              subst h2
              have h4 := ih _ db2 infos2 heq
              exact h4
          · rw [if_neg hany] at h
            cases h

/-- The per-product mint loop of `create_self_issue` only appends fresh,
pairwise distinct registration codes to the coupon table. -/
theorem selfMintLoop_spec (issueId partnerId now expiredAt : Nat) :
    ∀ (infos : List (Nat × Int)) (db : DB) (supply : List String)
      (db' : DB) (supply' : List String),
      selfMintLoop issueId partnerId now expiredAt infos db supply
        = .ok (db', supply') →
      ∃ new : List Coupon,
        db'.coupons = db.coupons ++ new ∧
        (∀ c ∈ new, c.registrationCode ∉ usedCodes db) ∧
        (new.map fun c => c.registrationCode).Nodup := by
  intro infos
  induction infos with
  | nil =>
    intro db supply db' supply' h
    unfold selfMintLoop at h
    injection h with h1
    injection h1 with h2 h3
    subst h2
    exact ⟨[], by simp, by simp, by simp⟩
  | cons info rest ih =>
    rcases info with ⟨pid, cnt⟩
    intro db supply db' supply' h
    unfold selfMintLoop at h
    simp only [] at h
    split at h
    · cases h
    · rename_i db2 supply2 heq
      rcases mintCoupons_spec _ _ _ _ _ _ _ _ _ _ heq with
        ⟨new1, hc1, hl1, hp1, hf1, hn1, hfr⟩
      rcases ih db2 supply2 db' supply' h with ⟨new2, hc2, hf2, hn2⟩
      have hc1' : db2.coupons = db.coupons ++ new1 := hc1
      have hf1' : ∀ c ∈ new1, c.registrationCode ∉ usedCodes db := hf1
      have hused : usedCodes db2
          = usedCodes db ++ new1.map fun c => c.registrationCode := by
        simp [usedCodes, hc1']
      have hfr1 : ∀ x ∈ new1.map (fun c => c.registrationCode),
          x ∉ usedCodes db := by
        intro x hx
        rcases List.mem_map.mp hx with ⟨c, hcm, rfl⟩
        exact hf1' c hcm
      have hfr2 : ∀ x ∈ new2.map (fun c => c.registrationCode),
          x ∉ usedCodes db ++ new1.map fun c => c.registrationCode := by
        intro x hx
        rcases List.mem_map.mp hx with ⟨c, hcm, rfl⟩
        rw [← hused]
        exact hf2 c hcm
      rcases fresh_append hfr1 hn1 hfr2 hn2 with ⟨hfAll, hnAll⟩
      refine ⟨new1 ++ new2, ?_, ?_, ?_⟩
      · rw [hc2, hc1', List.append_assoc]
      · intro c hc
        apply hfAll
        rw [← List.map_append]
        exact List.mem_map.mpr ⟨c, hc, rfl⟩
      · rw [List.map_append]
        exact hnAll

/-- Any successful self-issue call only ever appends fresh, pairwise
distinct registration codes to the coupon table. -/
theorem serviceCreateSelfIssue_coupons (db : DB) (partnerId : Nat)
    (title : String) (products : List AllocInput) (validDays now : Nat)
    (supply : List String) (db' : DB)
    (h : serviceCreateSelfIssue db partnerId title products validDays now
      supply = .ok db') :
    ∃ new : List Coupon,
      db'.coupons = db.coupons ++ new ∧
      (∀ c ∈ new, c.registrationCode ∉ usedCodes db) ∧
      (new.map fun c => c.registrationCode).Nodup := by
  unfold serviceCreateSelfIssue at h
  by_cases hie : products.isEmpty = true
  · rw [if_pos hie] at h
    cases h
  · rw [if_neg hie] at h
    by_cases hval : products.all validAllocInput = true
    · rw [if_pos hval] at h
      unfold repoCreateSelfIssue at h
      by_cases hpu : db.partnerUsers.contains partnerId = true
      · rw [if_neg (by simpa using hpu)] at h
        split at h
        · cases h
        · rename_i db1 infos heq
          simp only [] at h
          split at h
          · cases h
          · rename_i db3 supply3 heq2
            injection h with h1
            subst h1
            have hc1 : db1.coupons = db.coupons :=
              resolveSelfProducts_coupons partnerId now products db db1
                infos heq
            rcases selfMintLoop_spec _ _ _ _ _ _ _ _ _ heq2 with
              ⟨new, hc3, hf3, hn3⟩
            have hc3' : db3.coupons = db1.coupons ++ new := hc3
            have hf3' : ∀ c ∈ new, c.registrationCode ∉ usedCodes db1 := hf3
            have huc : usedCodes db1 = usedCodes db := by
              simp [usedCodes, hc1]
            refine ⟨new, ?_, ?_, hn3⟩
            · rw [hc3', hc1]
            · intro c hc
              have := hf3' c hc
              rw [huc] at this
              exact this
      · have hpu2 : db.partnerUsers.contains partnerId = false :=
          Bool.eq_false_iff.mpr hpu
        rw [if_pos (by rw [hpu2]; rfl)] at h
        cases h
    · rw [if_neg hval] at h
      cases h

/-- One minting operation preserves duplicate-freeness of the registration
codes. -/
theorem usedCodes_nodup_of_mintOp {db db' : DB} (h : mintOp db db')
    (hn : (usedCodes db).Nodup) : (usedCodes db').Nodup := by
  rcases h with ⟨issueId, partnerId, isApproved, products, reason, now,
      supply, hok⟩ |
    ⟨partnerId, title, products, validDays, now, supply, hok⟩
  · rcases serviceDecideIssue_coupons _ _ _ _ _ _ _ _ _ hok with
      ⟨new, hc, hf, hnd⟩
    have heq : usedCodes db'
        = usedCodes db ++ new.map fun c => c.registrationCode := by
      simp [usedCodes, hc]
    rw [heq]
    exact usedCodes_append_nodup hn hf hnd
  · rcases serviceCreateSelfIssue_coupons _ _ _ _ _ _ _ _ hok with
      ⟨new, hc, hf, hnd⟩
    have heq : usedCodes db'
        = usedCodes db ++ new.map fun c => c.registrationCode := by
      simp [usedCodes, hc]
    rw [heq]
    exact usedCodes_append_nodup hn hf hnd

/-- Claim C8: `registration_code` is globally unique across minted coupons.
Starting from any store with duplicate-free codes, any sequence of
successful minting operations (partner approvals via `decide_issue` and
partner self-issues via `create_self_issue`) keeps the registration codes
of all coupon rows pairwise distinct, because each freshly generated code
is re-rolled until it collides with no stored one. -/
theorem registration_codes_unique (db db' : DB)
    (h : Relation.ReflTransGen mintOp db db')
    (hn : (usedCodes db).Nodup) :
    (usedCodes db').Nodup := by
  induction h with
  | refl => exact hn
  | tail _ hstep ih => exact usedCodes_nodup_of_mintOp hstep ih

/-- Witness for C8: a self-issue of two coupons on a store already holding
code "c1", with a candidate supply whose first entry collides with "c1"
(exercising the regenerate-on-collision loop); all codes stay distinct. -/
theorem registration_codes_unique_witness :
    (usedCodes selfAfterDb).Nodup :=
  registration_codes_unique selfBase selfAfterDb
    (Relation.ReflTransGen.single
      (Or.inr ⟨2, "T", selfAllocs, 30, 100, selfSupply, rfl⟩))
    (by decide)

end DashCoupon
